import Mathlib

/-!
Shallow embedding of the MySQL operator cluster-labeler controller
(source file `pkg/controllers/cluster/labeler/cluster_labeler.go`).

The embedding models:
- Kubernetes label maps, with `none` standing for a Go `nil` map (so that the
  Go panic on writing into a nil map is observable);
- the pods of the namespace of the local instance as a `World` (a list of
  pods); the pod lister and the pod patcher are taken to act on the same
  world, i.e. a label patch is immediately visible to subsequent
  lister queries within a pass and across passes;
- `updateClusterRoleLabel`, `syncHandler`, `inCluster`, `keyFunc`,
  `EnqueueClusterStatus` and the error/requeue decision of
  `processNextWorkItem`, translated from the source;
- a fault parameter `failAt : Option Nat` naming the index of the PatchPod
  call (counting the calls issued in the pass) that fails with a transient
  API error; `failAt = none` is the fault-free execution.

Types of the repository that are not part of the source slice
(`innodb.ClusterStatus`, `cluster.Instance`, the label selectors
`PrimarySelector`, `NonPrimarySelector`, `SecondarySelector`,
`HasRoleSelector`) are modelled from the specification and marked as such
in their doc comments.
-/

namespace Labeler

/-- Label key for the role of a Pod within a MySQLCluster (source constant
`LabelMySQLClusterRole`). -/
def LabelMySQLClusterRole : String := "v1.mysql.oracle.com/role"

/-- Role value denoting a primary InnoDB cluster member. -/
def MySQLClusterRolePrimary : String := "primary"

/-- Role value denoting a secondary InnoDB cluster member. -/
def MySQLClusterRoleSecondary : String := "secondary"

/-- Modelled from the spec: the Member Resolver selects the resources
belonging to a cluster by a cluster-name label (spec section 4.3); the
selector helpers live outside this source slice, so the exact key string is
a modelling choice. Only its difference from the role key matters. -/
def LabelMySQLCluster : String := "v1.mysql.oracle.com/cluster"

/-- A Kubernetes label map, as a key-value association list; `none` models a
Go `nil` map. -/
abbrev LabelMap := Option (List (String × String))

/-- Lookup in an association list, first binding wins. -/
def lookupAssoc : List (String × String) → String → Option String
  | [], _ => none
  | (k', v) :: rest, k => if k' = k then some v else lookupAssoc rest k

/-- Remove every binding of a key from an association list. -/
def removeAssoc : List (String × String) → String → List (String × String)
  | [], _ => []
  | (k', v) :: rest, k =>
      if k' = k then removeAssoc rest k else (k', v) :: removeAssoc rest k

/-- Go map read `m[k]`; a nil map has no entries. -/
def lookupLabel (m : LabelMap) (k : String) : Option String :=
  match m with
  | none => none
  | some l => lookupAssoc l k

/-- Go map assignment `m[k] = v`; on a nil map this panics, modelled as
`none`. -/
def labelsSet (m : LabelMap) (k v : String) : Option LabelMap :=
  match m with
  | none => none
  | some l => some (some ((k, v) :: removeAssoc l k))

/-- Go `delete(m, k)`; a no-op on a nil map. -/
def labelsDelete (m : LabelMap) (k : String) : LabelMap :=
  match m with
  | none => none
  | some l => some (removeAssoc l k)

/-- A member pod, restricted to the fields the labeler reads: name,
namespace and labels. -/
structure Pod where
  Name : String
  Namespace : String
  Labels : LabelMap
deriving DecidableEq, Repr

/-- The (old, new) pair of objects that `updateClusterRoleLabel` submits to
`podControl.PatchPod`. -/
structure PatchRec where
  oldPod : Pod
  newPod : Pod
deriving DecidableEq, Repr

/-- Source `updateClusterRoleLabel`: deep-copy the pod, then either delete
the role key (for the empty value) or assign it, and submit (old, new) to
PatchPod. The result is `none` exactly when the Go code panics (assignment
into a nil label map). -/
def updateClusterRoleLabel (pod : Pod) (val : String) : Option PatchRec :=
  if val = "" then
    some ⟨pod, { pod with Labels := labelsDelete pod.Labels LabelMySQLClusterRole }⟩
  else
    match labelsSet pod.Labels LabelMySQLClusterRole val with
    | none => none
    | some m => some ⟨pod, { pod with Labels := m }⟩

/-- Modelled from the spec: an instance status in the topology, at minimum
distinguishing ONLINE from all other states (spec section 3); the repository
type `innodb.InstanceStatus` is outside this source slice. -/
structure InstanceStatus where
  Status : String
deriving DecidableEq, Repr

/-- The ONLINE instance status value. -/
def InstanceStatusOnline : String := "ONLINE"

/-- Modelled from the spec: the default replica set of a cluster status,
holding the topology map from member address (host:port) to instance
status. -/
structure ReplicaSetStatus where
  Topology : List (String × InstanceStatus)
deriving DecidableEq, Repr

/-- Modelled from the spec: `innodb.ClusterStatus`, identified by
`ClusterName` and carrying the topology snapshot. -/
structure ClusterStatus where
  ClusterName : String
  DefaultReplicaSet : ReplicaSetStatus
deriving DecidableEq, Repr

/-- Go map read on the topology. -/
def topologyLookup : List (String × InstanceStatus) → String → Option InstanceStatus
  | [], _ => none
  | (a, i) :: rest, addr => if a = addr then some i else topologyLookup rest addr

/-- Source `inCluster`: true iff an instance with the given address is
present in the topology of the default replica set and its status is
ONLINE. -/
def inCluster (status : ClusterStatus) (address : String) : Bool :=
  match topologyLookup status.DefaultReplicaSet.Topology address with
  | some inst => inst.Status == InstanceStatusOnline
  | none => false

/-- Modelled from the spec: the identity of the local MySQL instance —
namespace, cluster name, resource name and port (spec section 3,
LocalInstance); the repository type `cluster.Instance` is outside this
source slice. -/
structure Instance where
  Namespace : String
  ClusterName : String
  Name : String
  Port : Nat
deriving DecidableEq, Repr

/-- The address form `fmt.Sprintf("%s:%d", podName, port)` used by
`syncHandler` for topology membership checks. -/
def podAddress (name : String) (port : Nat) : String :=
  name ++ ":" ++ toString port

/-- Topology membership of the pod with the given name, looked up under the
port of the local instance. -/
def memberOnlineName (status : ClusterStatus) (li : Instance) (n : String) : Bool :=
  inCluster status (podAddress n li.Port)

/-- The membership check `inCluster(status, fmt.Sprintf("%s:%d", pod.Name,
clc.localInstance.Port))` appearing twice in `syncHandler`. -/
def memberOnline (status : ClusterStatus) (li : Instance) (pod : Pod) : Bool :=
  memberOnlineName status li pod.Name

/-- Modelled from the spec: membership of a pod in a cluster, decided by the
cluster-name label (spec section 4.3). -/
def clusterMatches (c : String) (m : LabelMap) : Bool :=
  lookupLabel m LabelMySQLCluster == some c

/-- Modelled from the spec: `PrimarySelector(c)` — in cluster c and
currently labeled primary. -/
def primaryMatches (c : String) (m : LabelMap) : Bool :=
  clusterMatches c m && (lookupLabel m LabelMySQLClusterRole == some MySQLClusterRolePrimary)

/-- Modelled from the spec: `NonPrimarySelector(c)` — in cluster c and not
labeled primary (role key absent or different). -/
def nonPrimaryMatches (c : String) (m : LabelMap) : Bool :=
  clusterMatches c m && !(lookupLabel m LabelMySQLClusterRole == some MySQLClusterRolePrimary)

/-- Modelled from the spec: `SecondarySelector(c)` — in cluster c and
labeled secondary. -/
def secondaryMatches (c : String) (m : LabelMap) : Bool :=
  clusterMatches c m && (lookupLabel m LabelMySQLClusterRole == some MySQLClusterRoleSecondary)

/-- Modelled from the spec: `HasRoleSelector(c)` — in cluster c and bearing
some role label. -/
def hasRoleMatches (c : String) (m : LabelMap) : Bool :=
  clusterMatches c m && (lookupLabel m LabelMySQLClusterRole).isSome

/-- A Go interface value handed to `keyFunc`: either a genuine
`*innodb.ClusterStatus`, or a value of some other dynamic type identified by
its type name. -/
inductive StoreObj where
  | clusterStatus (s : ClusterStatus)
  | other (typeName : String)
deriving DecidableEq, Repr

/-- Source `keyFunc`: the cluster name of a `*innodb.ClusterStatus`, an
error for any other dynamic type. -/
def keyFunc : StoreObj → Except String String
  | .clusterStatus s => .ok s.ClusterName
  | .other t => .error ("expected *innodb.ClusterStatus got " ++ t)

/-- The per-cluster snapshot store (`cache.Store` keyed by `keyFunc`).
Since only values accepted by `keyFunc` enter it, entries are cluster
statuses keyed by cluster name. -/
abbrev Store := List (String × ClusterStatus)

/-- `cache.Store.GetByKey`, returning presence as an option. -/
def storeGetByKey : Store → String → Option ClusterStatus
  | [], _ => none
  | (k, s) :: rest, key => if k = key then some s else storeGetByKey rest key

/-- `cache.Store.Add`: fails exactly when `keyFunc` does; a
`*innodb.ClusterStatus` overwrites the entry under its cluster-name key. -/
def storeAdd (st : Store) (obj : StoreObj) : Except String Store :=
  match obj with
  | .clusterStatus s =>
      .ok ((s.ClusterName, s) :: st.filter (fun p => p.1 != s.ClusterName))
  | .other t => .error ("expected *innodb.ClusterStatus got " ++ t)

/-- The deduplicating work queue, as the list of pending keys. -/
abbrev Queue := List String

/-- `workqueue.Add`: an already-pending key is coalesced. -/
def queueAdd (q : Queue) (key : String) : Queue :=
  if key ∈ q then q else q ++ [key]

/-- The mutable state touched by ingestion: snapshot store plus work
queue. -/
structure LabelerState where
  store : Store
  queue : Queue
deriving DecidableEq, Repr

/-- Source `EnqueueClusterStatus`: derive the key, store the snapshot, then
enqueue the key; the first failure aborts and is returned to the caller. The
result pairs the state after the call with the returned error. -/
def EnqueueClusterStatus (st : LabelerState) (obj : StoreObj) : LabelerState × Option String :=
  match keyFunc obj with
  | .error e => (st, some e)
  | .ok key =>
      match storeAdd st.store obj with
      | .error e => (st, some e)
      | .ok store' => ({ store := store', queue := queueAdd st.queue key }, none)

/-- The pods of the namespace of the local instance, as seen by the shared
informer cache backing both the lister and PatchPod. -/
abbrev World := List Pod

/-- Find a pod by name. -/
def findPod : World → String → Option Pod
  | [], _ => none
  | p :: rest, n => if p.Name = n then some p else findPod rest n

/-- Lister `Pods(ns).List(sel)`: the pods of the namespace whose labels
match the selector. -/
def listPods (w : World) (ns : String) (sel : LabelMap → Bool) : List Pod :=
  w.filter (fun p => (p.Namespace == ns) && sel p.Labels)

/-- Lister `Pods(ns).Get(name)`. -/
def getPod (w : World) (ns n : String) : Option Pod :=
  findPod (w.filter (fun p => p.Namespace == ns)) n

/-- Effect of a successful `PatchPod(old, new)` on the world: the pod with
the name and namespace of the old object is replaced by the new object. -/
def patchWorld (w : World) (pr : PatchRec) : World :=
  w.map (fun p =>
    if (p.Name == pr.oldPod.Name) && (p.Namespace == pr.oldPod.Namespace) then pr.newPod else p)

/-- Apply a sequence of patches in order. -/
def applyTrace (w : World) (tr : List PatchRec) : World :=
  tr.foldl patchWorld w

/-- Errors a `syncHandler` pass can end with: the local pod could not be
fetched, a PatchPod call failed (with the index of the failing call), or the
Go code panicked (nil-map write). -/
inductive SyncErr where
  | getPodFailed
  | patchFailed (idx : Nat)
  | panicked
deriving DecidableEq, Repr

/-- The running state of a pass: current world plus the PatchPod calls
issued so far. -/
abbrev PassSt := World × List PatchRec

/-- One `updateClusterRoleLabel` call inside the pass: build the patch,
fail transiently if this is the PatchPod call selected by `failAt`,
otherwise apply it to the world and record it. -/
def doPatch (failAt : Option Nat) (st : PassSt) (pod : Pod) (val : String) :
    PassSt × Option SyncErr :=
  match updateClusterRoleLabel pod val with
  | none => (st, some .panicked)
  | some pr =>
      if failAt = some st.2.length then (st, some (.patchFailed st.2.length))
      else ((patchWorld st.1 pr, st.2 ++ [pr]), none)

/-- Step 2 of `syncHandler`: walk the pods currently labeled primary; skip
the local instance; clear the role of members no longer ONLINE and demote
the others to secondary. A patch failure aborts the walk. -/
def relabelPrimaries (failAt : Option Nat) (status : ClusterStatus) (li : Instance) :
    List Pod → PassSt → PassSt × Option SyncErr
  | [], st => (st, none)
  | pod :: rest, st =>
      if pod.Name = li.Name then
        relabelPrimaries failAt status li rest st
      else
        match doPatch failAt st pod
            (if !(memberOnline status li pod) then "" else MySQLClusterRoleSecondary) with
        | (st', none) => relabelPrimaries failAt status li rest st'
        | (st', some e) => (st', some e)

/-- Step 4 of `syncHandler`: walk the non-primary pods of the cluster; clear
the role of members not ONLINE that still bear one; label members that are
ONLINE, not the local instance, and not yet secondary, as secondary. -/
def relabelNonPrimaries (failAt : Option Nat) (status : ClusterStatus) (li : Instance)
    (cn : String) : List Pod → PassSt → PassSt × Option SyncErr
  | [], st => (st, none)
  | pod :: rest, st =>
      if !(memberOnline status li pod) then
        if hasRoleMatches cn pod.Labels then
          match doPatch failAt st pod "" with
          | (st', none) => relabelNonPrimaries failAt status li cn rest st'
          | (st', some e) => (st', some e)
        else relabelNonPrimaries failAt status li cn rest st
      else
        if (pod.Name != li.Name) && !(secondaryMatches cn pod.Labels) then
          match doPatch failAt st pod MySQLClusterRoleSecondary with
          | (st', none) => relabelNonPrimaries failAt status li cn rest st'
          | (st', some e) => (st', some e)
        else relabelNonPrimaries failAt status li cn rest st

/-- The controller fields `syncHandler` reads: the local instance identity
and the snapshot store. -/
structure LabelerCtl where
  localInstance : Instance
  store : Store
deriving DecidableEq, Repr

/-- Steps 3 and 4 of `syncHandler`, as a function of the outcome of step 2
and of the primaryLabeled flag `b`: on an error from step 2 it is returned
as is; otherwise, unless a listed primary was the local instance, the local
pod is fetched by name (a hard error if absent) and labeled primary; then
the non-primary pods of the current world are relabeled. -/
def syncRest (failAt : Option Nat) (status : ClusterStatus) (li : Instance) (b : Bool)
    (x : PassSt × Option SyncErr) : PassSt × Option SyncErr :=
  match x with
  | (st, some e) => (st, some e)
  | (st1, none) =>
      match
        (if b then (st1, none)
         else
           match getPod st1.1 li.Namespace li.Name with
           | none => (st1, some SyncErr.getPodFailed)
           | some primary => doPatch failAt st1 primary MySQLClusterRolePrimary) with
      | (st, some e) => (st, some e)
      | (st2, none) =>
          relabelNonPrimaries failAt status li li.ClusterName
            (listPods st2.1 li.Namespace (nonPrimaryMatches li.ClusterName)) st2

/-- Source `syncHandler`: fetch the snapshot for the key (absence is treated
as stale and returns success with no action); relabel the currently-primary
pods (step 2); then run the rest of the pass (`syncRest`, steps 3 and 4).
The primaryLabeled flag set inside the step-2 loop equals the scan of the
listed pods passed here, since the flag is only read after the loop finished
them all. The result is the final world, the PatchPod calls issued, and the
returned error, if any. -/
def syncHandler (failAt : Option Nat) (clc : LabelerCtl) (w : World) (key : String) :
    PassSt × Option SyncErr :=
  match storeGetByKey clc.store key with
  | none => ((w, []), none)
  | some status =>
      syncRest failAt status clc.localInstance
        ((listPods w clc.localInstance.Namespace
            (primaryMatches clc.localInstance.ClusterName)).any
          (fun p => p.Name == clc.localInstance.Name))
        (relabelPrimaries failAt status clc.localInstance
          (listPods w clc.localInstance.Namespace (primaryMatches clc.localInstance.ClusterName))
          (w, []))

/-- The queue operation `processNextWorkItem` performs after a pass. -/
inductive QueueAction where
  | forget
  | addRateLimited
deriving DecidableEq, Repr

/-- Source `processNextWorkItem`, restricted to its requeue decision: a nil
result from `syncHandler` leads to `Forget`, a returned error to
`AddRateLimited`; a Go panic propagates past both (modelled as `none`). -/
def processKeyAction (failAt : Option Nat) (clc : LabelerCtl) (w : World) (key : String) :
    Option QueueAction :=
  match (syncHandler failAt clc w key).2 with
  | none => some .forget
  | some .panicked => none
  | some _ => some .addRateLimited

/-- Specification-side description of the role the pass drives a member pod
to: the local instance is labeled primary, any other pod is labeled
secondary when its address is ONLINE in the topology and bears no role
otherwise. Used only in theorem statements. -/
def desiredRoleLabel (status : ClusterStatus) (li : Instance) (n : String) : Option String :=
  if n = li.Name then some MySQLClusterRolePrimary
  else if memberOnlineName status li n then some MySQLClusterRoleSecondary
  else none

/-- The condition under which step 4 of `syncHandler` patches a listed
pod. -/
def step4Patches (status : ClusterStatus) (li : Instance) (cn : String) (p : Pod) : Bool :=
  if !(memberOnline status li p) then hasRoleMatches cn p.Labels
  else (p.Name != li.Name) && !(secondaryMatches cn p.Labels)

/-- The final world of a pass relates to the initial one pod by pod: names,
namespaces and all labels other than the role label are preserved. -/
def descends (w' w : World) : Prop :=
  ∀ q ∈ w', ∃ p ∈ w, q.Name = p.Name ∧ q.Namespace = p.Namespace ∧
    ∀ k, k ≠ LabelMySQLClusterRole → lookupLabel q.Labels k = lookupLabel p.Labels k

/-! ### Concrete fixtures used by witnesses and the counterexample -/

/-- The local instance of the concrete scenario: pod `a` of cluster `c` in
namespace `ns`, port 3306. -/
def li0 : Instance := { Namespace := "ns", ClusterName := "c", Name := "a", Port := 3306 }

/-- A topology in which both `a:3306` and `b:3306` are ONLINE. -/
def status0 : ClusterStatus :=
  { ClusterName := "c",
    DefaultReplicaSet :=
      { Topology := [("a:3306", { Status := "ONLINE" }), ("b:3306", { Status := "ONLINE" })] } }

/-- The local pod, carrying only the cluster label. -/
def podA : Pod := { Name := "a", Namespace := "ns", Labels := some [(LabelMySQLCluster, "c")] }

/-- Another member pod, currently labeled primary. -/
def podB : Pod :=
  { Name := "b", Namespace := "ns",
    Labels := some [(LabelMySQLCluster, "c"), (LabelMySQLClusterRole, "primary")] }

/-- A pod with a nil label map. -/
def podNil : Pod := { Name := "a", Namespace := "ns", Labels := none }

/-- Controller fixture holding the snapshot for cluster `c`. -/
def clc0 : LabelerCtl := { localInstance := li0, store := [("c", status0)] }

/-- A topology in which the address of the local instance is absent. -/
def statusNoLocal : ClusterStatus :=
  { ClusterName := "c",
    DefaultReplicaSet := { Topology := [("b:3306", { Status := "ONLINE" })] } }

/-- Controller fixture whose snapshot does not list the local instance. -/
def clcNoLocal : LabelerCtl := { localInstance := li0, store := [("c", statusNoLocal)] }

/-- Empty ingestion state. -/
def st0 : LabelerState := { store := [], queue := [] }

/-- The patch submitted when labeling the local fixture pod secondary. -/
def prA : PatchRec :=
  { oldPod := podA,
    newPod := { Name := "a", Namespace := "ns",
                Labels := some [(LabelMySQLClusterRole, MySQLClusterRoleSecondary),
                                (LabelMySQLCluster, "c")] } }

/-- The local fixture pod after being labeled primary. -/
def podAout : Pod :=
  { Name := "a", Namespace := "ns",
    Labels := some [(LabelMySQLClusterRole, MySQLClusterRolePrimary), (LabelMySQLCluster, "c")] }

/-- The previously-primary fixture pod after being demoted to secondary. -/
def podBout : Pod :=
  { Name := "b", Namespace := "ns",
    Labels := some [(LabelMySQLClusterRole, MySQLClusterRoleSecondary), (LabelMySQLCluster, "c")] }

/-- The two PatchPod calls of the fixture pass: demote b, then label a. -/
def trOut : List PatchRec :=
  [{ oldPod := podB, newPod := podBout }, { oldPod := podA, newPod := podAout }]

/-- A member pod whose address `cc:3306` is absent from the topology and
which still bears a stale secondary role label. -/
def podC : Pod :=
  { Name := "cc", Namespace := "ns",
    Labels := some [(LabelMySQLCluster, "c"), (LabelMySQLClusterRole, "secondary")] }

/-- The offline fixture pod after the pass cleared its role label. -/
def podCout : Pod :=
  { Name := "cc", Namespace := "ns", Labels := some [(LabelMySQLCluster, "c")] }

/-! ### Basic lemmas about label maps -/

theorem lookupAssoc_removeAssoc_self (l : List (String × String)) (k : String) :
    lookupAssoc (removeAssoc l k) k = none := by
  induction l with
  | nil => rfl
  | cons hd tl ih =>
      obtain ⟨k', v⟩ := hd
      by_cases h : k' = k
      · simpa [removeAssoc, h] using ih
      · simpa [removeAssoc, lookupAssoc, h] using ih

theorem lookupAssoc_removeAssoc_ne (l : List (String × String)) {k k' : String}
    (h : k' ≠ k) : lookupAssoc (removeAssoc l k) k' = lookupAssoc l k' := by
  induction l with
  | nil => rfl
  | cons hd tl ih =>
      obtain ⟨a, v⟩ := hd
      by_cases ha : a = k
      · have h2 : ¬(k = k') := fun hc => h hc.symm
        simp [removeAssoc, lookupAssoc, ha, h2, ih]
      · by_cases ha' : a = k'
        · simp [removeAssoc, lookupAssoc, ha, ha', h]
        · simp [removeAssoc, lookupAssoc, ha, ha', ih]

theorem clusterKey_ne_roleKey : LabelMySQLCluster ≠ LabelMySQLClusterRole := by
  decide

/-! ### Characterization of updateClusterRoleLabel -/

theorem updateRole_some (pod : Pod) (val : String) (pr : PatchRec)
    (h : updateClusterRoleLabel pod val = some pr) :
    pr.oldPod = pod ∧ pr.newPod.Name = pod.Name ∧ pr.newPod.Namespace = pod.Namespace ∧
      lookupLabel pr.newPod.Labels LabelMySQLClusterRole = (if val = "" then none else some val) ∧
      ∀ k, k ≠ LabelMySQLClusterRole → lookupLabel pr.newPod.Labels k = lookupLabel pod.Labels k := by
  obtain ⟨pn, pns, plab⟩ := pod
  unfold updateClusterRoleLabel at h
  by_cases hv : val = ""
  · rw [if_pos hv] at h
    injection h with h
    subst h
    refine ⟨rfl, rfl, rfl, ?_, ?_⟩
    · rw [if_pos hv]
      cases plab with
      | none => simp [labelsDelete, lookupLabel]
      | some l => simp [labelsDelete, lookupLabel, lookupAssoc_removeAssoc_self]
    · intro k hk
      cases plab with
      | none => simp [labelsDelete, lookupLabel]
      | some l => simp [labelsDelete, lookupLabel, lookupAssoc_removeAssoc_ne l hk]
  · rw [if_neg hv] at h
    cases plab with
    | none => simp [labelsSet] at h
    | some l =>
        simp only [labelsSet, Option.some_inj] at h
        subst h
        refine ⟨rfl, rfl, rfl, ?_, ?_⟩
        · simp [lookupLabel, lookupAssoc, hv]
        · intro k hk
          have hk' : ¬(LabelMySQLClusterRole = k) := fun hc => hk hc.symm
          simp [lookupLabel, lookupAssoc, hk', lookupAssoc_removeAssoc_ne l hk]

theorem updateRole_total (pod : Pod) (val : String) (hnn : pod.Labels ≠ none) :
    ∃ pr, updateClusterRoleLabel pod val = some pr := by
  obtain ⟨pn, pns, plab⟩ := pod
  unfold updateClusterRoleLabel
  by_cases hv : val = ""
  · exact ⟨_, by rw [if_pos hv]⟩
  · cases plab with
    | none => exact absurd rfl hnn
    | some l => exact ⟨_, by rw [if_neg hv]; rfl⟩

/-! ### Lemmas about worlds -/

theorem findPod_mem {w : World} {n : String} {p : Pod} (h : findPod w n = some p) :
    p ∈ w ∧ p.Name = n := by
  induction w with
  | nil => simp [findPod] at h
  | cons hd tl ih =>
      unfold findPod at h
      by_cases hh : hd.Name = n
      · rw [if_pos hh] at h
        cases h
        exact ⟨List.mem_cons_self _ _, hh⟩
      · rw [if_neg hh] at h
        obtain ⟨h1, h2⟩ := ih h
        exact ⟨List.mem_cons_of_mem _ h1, h2⟩

theorem findPod_of_mem_nodup {w : World} {p : Pod}
    (hnd : (w.map Pod.Name).Nodup) (hp : p ∈ w) : findPod w p.Name = some p := by
  induction w with
  | nil => simp at hp
  | cons hd tl ih =>
      rcases List.mem_cons.mp hp with h | h
      · subst h; simp [findPod]
      · have hne : hd.Name ≠ p.Name := by
          intro hc
          have : p.Name ∈ tl.map Pod.Name := List.mem_map_of_mem _ h
          rw [List.map_cons, List.nodup_cons] at hnd
          exact hnd.1 (hc ▸ this)
        rw [List.map_cons, List.nodup_cons] at hnd
        simp only [findPod, if_neg hne]
        exact ih hnd.2 h

theorem findPod_isSome_iff {w : World} {n : String} :
    (findPod w n).isSome ↔ n ∈ w.map Pod.Name := by
  induction w with
  | nil => simp [findPod]
  | cons hd tl ih =>
      by_cases hh : hd.Name = n
      · simp [findPod, hh]
      · simp only [findPod, if_neg hh, List.map_cons, List.mem_cons, ih]
        constructor
        · exact Or.inr
        · rintro (h | h)
          · exact absurd h.symm hh
          · exact h

theorem patchWorld_map_name {pr : PatchRec} (hN : pr.newPod.Name = pr.oldPod.Name)
    (w : World) : (patchWorld w pr).map Pod.Name = w.map Pod.Name := by
  induction w with
  | nil => rfl
  | cons hd tl ih =>
      simp only [patchWorld, List.map_cons] at ih ⊢
      by_cases hc : ((hd.Name == pr.oldPod.Name) && (hd.Namespace == pr.oldPod.Namespace)) = true
      · rw [if_pos hc, ih]
        have : hd.Name = pr.oldPod.Name := by
          have := (Bool.and_eq_true _ _).mp hc
          exact beq_iff_eq.mp this.1
        rw [hN, this]
      · rw [if_neg hc, ih]

theorem patchWorld_namespaces {pr : PatchRec} {ns : String}
    (hNs : pr.newPod.Namespace = ns) {w : World} (H1 : ∀ p ∈ w, p.Namespace = ns) :
    ∀ q ∈ patchWorld w pr, q.Namespace = ns := by
  intro q hq
  obtain ⟨p, hp, hfp⟩ := List.mem_map.mp hq
  by_cases hc : ((p.Name == pr.oldPod.Name) && (p.Namespace == pr.oldPod.Namespace)) = true
  · rw [if_pos hc] at hfp; rw [← hfp]; exact hNs
  · rw [if_neg hc] at hfp; rw [← hfp]; exact H1 p hp

theorem findPod_patchWorld_ne {pr : PatchRec} (hN : pr.newPod.Name = pr.oldPod.Name)
    {n : String} (hne : n ≠ pr.oldPod.Name) (w : World) :
    findPod (patchWorld w pr) n = findPod w n := by
  induction w with
  | nil => rfl
  | cons hd tl ih =>
      simp only [patchWorld, List.map_cons] at ih ⊢
      by_cases hc : ((hd.Name == pr.oldPod.Name) && (hd.Namespace == pr.oldPod.Namespace)) = true
      · rw [if_pos hc]
        have hhd : hd.Name = pr.oldPod.Name := beq_iff_eq.mp ((Bool.and_eq_true _ _).mp hc).1
        have h1 : pr.newPod.Name ≠ n := fun hc' => hne (hc'.symm.trans hN)
        have h2 : hd.Name ≠ n := fun hc' => hne (hc'.symm.trans hhd)
        have h1' : ¬(pr.newPod.Name = n) := h1
        simp only [findPod, if_neg h1', if_neg h2]
        exact ih
      · rw [if_neg hc]
        by_cases hh : hd.Name = n
        · simp only [findPod, if_pos hh]
        · simp only [findPod, if_neg hh]; exact ih

theorem findPod_patchWorld_self {pr : PatchRec} {ns : String}
    (hN : pr.newPod.Name = pr.oldPod.Name) {w : World}
    (H1 : ∀ p ∈ w, p.Namespace = ns) (hons : pr.oldPod.Namespace = ns)
    (hfind : (findPod w pr.oldPod.Name).isSome) :
    findPod (patchWorld w pr) pr.oldPod.Name = some pr.newPod := by
  induction w with
  | nil => simp [findPod] at hfind
  | cons hd tl ih =>
      simp only [patchWorld, List.map_cons]
      by_cases hh : hd.Name = pr.oldPod.Name
      · have hns : hd.Namespace = pr.oldPod.Namespace := by
          rw [H1 hd (List.mem_cons_self _ _), hons]
        have hc : ((hd.Name == pr.oldPod.Name) && (hd.Namespace == pr.oldPod.Namespace)) = true := by
          rw [Bool.and_eq_true]; exact ⟨beq_iff_eq.mpr hh, beq_iff_eq.mpr hns⟩
        rw [if_pos hc]
        simp only [findPod, if_pos hN]
      · have hc : ¬(((hd.Name == pr.oldPod.Name) && (hd.Namespace == pr.oldPod.Namespace)) = true) := by
          simp [hh]
        rw [if_neg hc]
        simp only [findPod, if_neg hh] at hfind ⊢
        exact ih (fun p hp => H1 p (List.mem_cons_of_mem _ hp)) hfind

theorem mem_patchWorld {pr : PatchRec} {w : World} {q : Pod}
    (h : q ∈ patchWorld w pr) : q = pr.newPod ∨ q ∈ w := by
  obtain ⟨p, hp, hfp⟩ := List.mem_map.mp h
  by_cases hc : ((p.Name == pr.oldPod.Name) && (p.Namespace == pr.oldPod.Namespace)) = true
  · rw [if_pos hc] at hfp; exact Or.inl hfp.symm
  · rw [if_neg hc] at hfp; exact Or.inr (hfp ▸ hp)

theorem descends_refl (w : World) : descends w w :=
  fun q hq => ⟨q, hq, rfl, rfl, fun _ _ => rfl⟩

theorem descends_trans {w1 w2 w3 : World} (h12 : descends w1 w2) (h23 : descends w2 w3) :
    descends w1 w3 := by
  intro q hq
  obtain ⟨p, hp, h1, h2, h3⟩ := h12 q hq
  obtain ⟨r, hr, g1, g2, g3⟩ := h23 p hp
  exact ⟨r, hr, h1.trans g1, h2.trans g2,
    fun k hk => (h3 k hk).trans (g3 k hk)⟩

theorem descends_patchWorld {pod : Pod} {val : String} {pr : PatchRec} {w : World}
    (h : updateClusterRoleLabel pod val = some pr) (hpod : pod ∈ w) :
    descends (patchWorld w pr) w := by
  intro q hq
  obtain ⟨h1, h2, h3, _, h5⟩ := updateRole_some pod val pr h
  rcases mem_patchWorld hq with hq' | hq'
  · subst hq'
    exact ⟨pod, hpod, h1 ▸ h2, h1 ▸ h3, fun k hk => h5 k hk⟩
  · exact ⟨q, hq', rfl, rfl, fun _ _ => rfl⟩

/-! ### Lemmas about listers -/

theorem mem_listPods {w : World} {ns : String} {sel : LabelMap → Bool} {p : Pod} :
    p ∈ listPods w ns sel ↔ p ∈ w ∧ p.Namespace = ns ∧ sel p.Labels = true := by
  simp [listPods, List.mem_filter, Bool.and_eq_true, beq_iff_eq, and_assoc]

theorem listPods_nodup {w : World} {ns : String} {sel : LabelMap → Bool}
    (hnd : (w.map Pod.Name).Nodup) : ((listPods w ns sel).map Pod.Name).Nodup :=
  ((List.filter_sublist w).map Pod.Name).nodup hnd

theorem getPod_eq_findPod {w : World} {ns : String} (n : String)
    (H1 : ∀ p ∈ w, p.Namespace = ns) : getPod w ns n = findPod w n := by
  unfold getPod
  rw [List.filter_eq_self.mpr (fun p hp => beq_iff_eq.mpr (H1 p hp))]

theorem clusterMatches_ne_none {c : String} {m : LabelMap}
    (h : clusterMatches c m = true) : m ≠ none := by
  intro hm
  rw [hm] at h
  simp [clusterMatches, lookupLabel] at h

theorem clusterMatches_of_frame {c : String} {m m' : LabelMap}
    (h : ∀ k, k ≠ LabelMySQLClusterRole → lookupLabel m' k = lookupLabel m k) :
    clusterMatches c m' = clusterMatches c m := by
  unfold clusterMatches
  rw [h LabelMySQLCluster clusterKey_ne_roleKey]

/-! ### The fault-free behaviour of the relabeling loops -/

theorem doPatch_none {st : PassSt} {pod : Pod} {val : String} {pr : PatchRec}
    (h : updateClusterRoleLabel pod val = some pr) :
    doPatch none st pod val = ((patchWorld st.1 pr, st.2 ++ [pr]), none) := by
  unfold doPatch
  rw [h]
  simp

/-- Full description of a fault-free run of the primary-relabeling loop over
pods listed from the current world: it succeeds, issues one patch per listed
non-local pod in order, leaves every other name untouched, and drives each
listed non-local pod to secondary (if ONLINE) or to no role (otherwise),
preserving its other labels. -/
theorem relabelPrimaries_spec (status : ClusterStatus) (li : Instance) (ns : String) :
    ∀ (L : List Pod) (w : World) (tr : List PatchRec),
      (∀ q ∈ w, q.Namespace = ns) →
      (∀ p ∈ L, findPod w p.Name = some p) →
      (∀ p ∈ L, p.Labels ≠ none) →
      (L.map Pod.Name).Nodup →
      ∃ w' Δ,
        relabelPrimaries none status li L (w, tr) = ((w', tr ++ Δ), none) ∧
        Δ.map (fun r => r.oldPod.Name) = (L.filter (fun p => p.Name != li.Name)).map Pod.Name ∧
        (∀ q ∈ w', q.Namespace = ns) ∧
        w'.map Pod.Name = w.map Pod.Name ∧
        descends w' w ∧
        (∀ n, (n ∉ L.map Pod.Name ∨ n = li.Name) → findPod w' n = findPod w n) ∧
        (∀ p ∈ L, p.Name ≠ li.Name →
          ∃ p', findPod w' p.Name = some p' ∧ p'.Name = p.Name ∧ p'.Namespace = p.Namespace ∧
            lookupLabel p'.Labels LabelMySQLClusterRole =
              (if memberOnline status li p then some MySQLClusterRoleSecondary else none) ∧
            (∀ k, k ≠ LabelMySQLClusterRole → lookupLabel p'.Labels k = lookupLabel p.Labels k)) := by
  intro L
  induction L with
  | nil =>
      intro w tr H1 _ _ _
      refine ⟨w, [], by simp [relabelPrimaries], rfl, H1, rfl, descends_refl w,
        fun n _ => rfl, fun p hp => absurd hp (List.not_mem_nil p)⟩
  | cons pod rest ih =>
      intro w tr H1 Hfind Hnn Hnd
      rw [List.map_cons, List.nodup_cons] at Hnd
      by_cases hloc : pod.Name = li.Name
      · obtain ⟨w', Δ, hrun, htr, hH1, hnames, hdesc, huntouched, hper⟩ :=
          ih w tr H1 (fun p hp => Hfind p (List.mem_cons_of_mem _ hp))
            (fun p hp => Hnn p (List.mem_cons_of_mem _ hp)) Hnd.2
        refine ⟨w', Δ, ?_, ?_, hH1, hnames, hdesc, ?_, ?_⟩
        · simp only [relabelPrimaries, if_pos hloc]
          exact hrun
        · rw [htr, List.filter_cons, if_neg (by simp [hloc])]
        · intro n hn
          refine huntouched n ?_
          rcases hn with hn | hn
          · exact Or.inl (fun hc => hn (by rw [List.map_cons]; exact List.mem_cons_of_mem _ hc))
          · exact Or.inr hn
        · intro p hp hpli
          rcases List.mem_cons.mp hp with h | h
          · exact absurd (by rw [h]; exact hloc) hpli
          · exact hper p h hpli
      · have hpodw := Hfind pod (List.mem_cons_self _ _)
        have hpodmem := (findPod_mem hpodw).1
        have hpodns : pod.Namespace = ns := H1 pod hpodmem
        obtain ⟨pr, hpr⟩ := updateRole_total pod
          (if !(memberOnline status li pod) then "" else MySQLClusterRoleSecondary)
          (Hnn pod (List.mem_cons_self _ _))
        obtain ⟨hold, hnm, hns, hrole, hframe⟩ := updateRole_some pod _ pr hpr
        have hN : pr.newPod.Name = pr.oldPod.Name := by rw [hold, hnm]
        have hNs2 : pr.newPod.Namespace = ns := by rw [hns, hpodns]
        have hH1w2 : ∀ q ∈ patchWorld w pr, q.Namespace = ns := patchWorld_namespaces hNs2 H1
        have hfind2 : ∀ p ∈ rest, findPod (patchWorld w pr) p.Name = some p := by
          intro p hp
          rw [findPod_patchWorld_ne hN
            (by rw [hold]; intro hc; exact Hnd.1 (hc ▸ List.mem_map_of_mem Pod.Name hp)) w]
          exact Hfind p (List.mem_cons_of_mem _ hp)
        obtain ⟨w', Δr, hrun, htr, hH1, hnames, hdesc, huntouched, hper⟩ :=
          ih (patchWorld w pr) (tr ++ [pr]) hH1w2 hfind2
            (fun p hp => Hnn p (List.mem_cons_of_mem _ hp)) Hnd.2
        refine ⟨w', pr :: Δr, ?_, ?_, hH1, ?_, ?_, ?_, ?_⟩
        · simp only [relabelPrimaries, if_neg hloc]
          rw [doPatch_none hpr]
          show relabelPrimaries none status li rest (patchWorld w pr, tr ++ [pr]) =
            ((w', tr ++ (pr :: Δr)), none)
          rw [hrun, List.append_assoc]
          rfl
        · simp only [List.map_cons, List.filter_cons]
          rw [if_pos (show (pod.Name != li.Name) = true by simp [hloc])]
          simp only [List.map_cons]
          rw [htr, hold]
        · exact hnames.trans (patchWorld_map_name hN w)
        · exact descends_trans hdesc (descends_patchWorld hpr hpodmem)
        · intro n hn
          have hnpod : n ≠ pod.Name := by
            rcases hn with hn | hn
            · exact fun hc => hn (by rw [List.map_cons, hc]; exact List.mem_cons_self _ _)
            · exact fun hc => hloc (hc.symm.trans hn)
          have hside : n ∉ rest.map Pod.Name ∨ n = li.Name := by
            rcases hn with hn | hn
            · exact Or.inl (fun hc => hn (by rw [List.map_cons]; exact List.mem_cons_of_mem _ hc))
            · exact Or.inr hn
          rw [huntouched n hside]
          exact findPod_patchWorld_ne hN (by rw [hold]; exact hnpod) w
        · intro p hp hpli
          rcases List.mem_cons.mp hp with h | h
          · subst h
            have hstep : findPod w' p.Name = findPod (patchWorld w pr) p.Name :=
              huntouched p.Name (Or.inl Hnd.1)
            have hself : findPod (patchWorld w pr) pr.oldPod.Name = some pr.newPod :=
              findPod_patchWorld_self hN H1 (by rw [hold]; exact hpodns)
                (by rw [hold, hpodw]; rfl)
            rw [hold] at hself
            refine ⟨pr.newPod, hstep.trans hself, hnm, hns, ?_, hframe⟩
            cases hon : memberOnline status li p with
            | false => simpa [hon] using hrole
            | true =>
                rw [hon] at hrole
                simpa [MySQLClusterRoleSecondary] using hrole
          · exact hper p h hpli

/-- Facts about one successful patch of a pod that is present in the world:
the world keeps its names and namespaces, only the patched name changes, and
the patched pod carries the written role with all other labels intact. -/
theorem patchStep_facts {w : World} {ns : String} {pod : Pod} {val : String} {pr : PatchRec}
    (H1 : ∀ q ∈ w, q.Namespace = ns)
    (hpodw : findPod w pod.Name = some pod)
    (hpr : updateClusterRoleLabel pod val = some pr) :
    pr.oldPod = pod ∧
    (∀ q ∈ patchWorld w pr, q.Namespace = ns) ∧
    (patchWorld w pr).map Pod.Name = w.map Pod.Name ∧
    descends (patchWorld w pr) w ∧
    (∀ n, n ≠ pod.Name → findPod (patchWorld w pr) n = findPod w n) ∧
    findPod (patchWorld w pr) pod.Name = some pr.newPod ∧
    pr.newPod.Name = pod.Name ∧ pr.newPod.Namespace = pod.Namespace ∧
    lookupLabel pr.newPod.Labels LabelMySQLClusterRole = (if val = "" then none else some val) ∧
    (∀ k, k ≠ LabelMySQLClusterRole → lookupLabel pr.newPod.Labels k = lookupLabel pod.Labels k) := by
  obtain ⟨hold, hnm, hns, hrole, hframe⟩ := updateRole_some pod val pr hpr
  have hpodmem := (findPod_mem hpodw).1
  have hpodns : pod.Namespace = ns := H1 pod hpodmem
  have hN : pr.newPod.Name = pr.oldPod.Name := by rw [hold, hnm]
  have hNs2 : pr.newPod.Namespace = ns := by rw [hns, hpodns]
  refine ⟨hold, patchWorld_namespaces hNs2 H1, patchWorld_map_name hN w,
    descends_patchWorld hpr hpodmem, ?_, ?_, hnm, hns, hrole, hframe⟩
  · intro n hn
    exact findPod_patchWorld_ne hN (by rw [hold]; exact hn) w
  · have hs := findPod_patchWorld_self hN H1 (by rw [hold]; exact hpodns)
      (by rw [hold, hpodw]; rfl)
    rw [hold] at hs
    exact hs

theorem relabelNP_skip_offline {f : Option Nat} {status : ClusterStatus} {li : Instance}
    {cn : String} {pod : Pod} {rest : List Pod} {st : PassSt}
    (hon : memberOnline status li pod = false)
    (hhr : hasRoleMatches cn pod.Labels = false) :
    relabelNonPrimaries f status li cn (pod :: rest) st =
      relabelNonPrimaries f status li cn rest st := by
  simp [relabelNonPrimaries, hon, hhr]

theorem relabelNP_clear_offline {f : Option Nat} {status : ClusterStatus} {li : Instance}
    {cn : String} {pod : Pod} {rest : List Pod} {st : PassSt}
    (hon : memberOnline status li pod = false)
    (hhr : hasRoleMatches cn pod.Labels = true) :
    relabelNonPrimaries f status li cn (pod :: rest) st =
      (match doPatch f st pod "" with
       | (st', none) => relabelNonPrimaries f status li cn rest st'
       | (st', some e) => (st', some e)) := by
  simp [relabelNonPrimaries, hon, hhr]

theorem relabelNP_skip_online {f : Option Nat} {status : ClusterStatus} {li : Instance}
    {cn : String} {pod : Pod} {rest : List Pod} {st : PassSt}
    (hon : memberOnline status li pod = true)
    (hcond : ((pod.Name != li.Name) && !(secondaryMatches cn pod.Labels)) = false) :
    relabelNonPrimaries f status li cn (pod :: rest) st =
      relabelNonPrimaries f status li cn rest st := by
  simp only [relabelNonPrimaries, hon, hcond, Bool.not_true]
  rfl

theorem relabelNP_label_online {f : Option Nat} {status : ClusterStatus} {li : Instance}
    {cn : String} {pod : Pod} {rest : List Pod} {st : PassSt}
    (hon : memberOnline status li pod = true)
    (hcond : ((pod.Name != li.Name) && !(secondaryMatches cn pod.Labels)) = true) :
    relabelNonPrimaries f status li cn (pod :: rest) st =
      (match doPatch f st pod MySQLClusterRoleSecondary with
       | (st', none) => relabelNonPrimaries f status li cn rest st'
       | (st', some e) => (st', some e)) := by
  simp only [relabelNonPrimaries, hon, hcond, Bool.not_true]
  rfl

/-- Full description of a fault-free run of the non-primary relabeling loop
over cluster pods listed from the current world, none of them named like the
local instance: it succeeds, patches exactly the listed pods whose current
role disagrees with their topology state, leaves everything else untouched,
and afterwards every listed pod is secondary (if ONLINE) or role-free
(otherwise) with its other labels intact. -/
theorem relabelNonPrimaries_spec (status : ClusterStatus) (li : Instance) (cn ns : String) :
    ∀ (L : List Pod) (w : World) (tr : List PatchRec),
      (∀ q ∈ w, q.Namespace = ns) →
      (∀ p ∈ L, findPod w p.Name = some p) →
      (∀ p ∈ L, clusterMatches cn p.Labels = true) →
      (L.map Pod.Name).Nodup →
      (∀ p ∈ L, p.Name ≠ li.Name) →
      ∃ w' Δ,
        relabelNonPrimaries none status li cn L (w, tr) = ((w', tr ++ Δ), none) ∧
        Δ.map (fun r => r.oldPod) = L.filter (step4Patches status li cn) ∧
        (∀ q ∈ w', q.Namespace = ns) ∧
        w'.map Pod.Name = w.map Pod.Name ∧
        descends w' w ∧
        (∀ n, n ∉ L.map Pod.Name → findPod w' n = findPod w n) ∧
        (∀ p ∈ L,
          ∃ p', findPod w' p.Name = some p' ∧ p'.Name = p.Name ∧ p'.Namespace = p.Namespace ∧
            lookupLabel p'.Labels LabelMySQLClusterRole =
              (if memberOnline status li p then some MySQLClusterRoleSecondary else none) ∧
            (∀ k, k ≠ LabelMySQLClusterRole → lookupLabel p'.Labels k = lookupLabel p.Labels k)) := by
  intro L
  induction L with
  | nil =>
      intro w tr H1 _ _ _ _
      exact ⟨w, [], by simp [relabelNonPrimaries], rfl, H1, rfl, descends_refl w,
        fun n _ => rfl, fun p hp => absurd hp (List.not_mem_nil p)⟩
  | cons pod rest ih =>
      intro w tr H1 Hfind Hcl Hnd Hloc
      rw [List.map_cons, List.nodup_cons] at Hnd
      have hpodw := Hfind pod (List.mem_cons_self _ _)
      have hpodcl := Hcl pod (List.mem_cons_self _ _)
      have hpodnn : pod.Labels ≠ none := clusterMatches_ne_none hpodcl
      have hpodli : pod.Name ≠ li.Name := Hloc pod (List.mem_cons_self _ _)
      have hfindtl := fun p hp => Hfind p (List.mem_cons_of_mem _ hp)
      have hcltl := fun p hp => Hcl p (List.mem_cons_of_mem _ hp)
      have hloctl := fun p hp => Hloc p (List.mem_cons_of_mem _ hp)
      cases hon : memberOnline status li pod with
      | false =>
          cases hhr : hasRoleMatches cn pod.Labels with
          | true =>
              -- clear the role of a member that is no longer online
              obtain ⟨pr, hpr⟩ := updateRole_total pod "" hpodnn
              obtain ⟨hold, hPns, hPnames, hPdesc, hPuntouched, hPself, hPnm, hPns2, hProle,
                hPframe⟩ := patchStep_facts H1 hpodw hpr
              have hfind2 : ∀ p ∈ rest, findPod (patchWorld w pr) p.Name = some p := by
                intro p hp
                rw [hPuntouched p.Name
                  (fun hc => Hnd.1 (hc ▸ List.mem_map_of_mem Pod.Name hp))]
                exact hfindtl p hp
              obtain ⟨w', Δr, hrun, htr, hH1, hnames, hdesc, huntouched, hper⟩ :=
                ih (patchWorld w pr) (tr ++ [pr]) hPns hfind2 hcltl Hnd.2 hloctl
              refine ⟨w', pr :: Δr, ?_, ?_, hH1, hnames.trans hPnames,
                descends_trans hdesc hPdesc, ?_, ?_⟩
              · rw [relabelNP_clear_offline hon hhr, doPatch_none hpr]
                show relabelNonPrimaries none status li cn rest (patchWorld w pr, tr ++ [pr]) =
                  ((w', tr ++ (pr :: Δr)), none)
                rw [hrun, List.append_assoc]
                rfl
              · simp only [List.map_cons, List.filter_cons]
                rw [if_pos (show step4Patches status li cn pod = true by
                  simp [step4Patches, hon, hhr])]
                rw [htr, hold]
              · intro n hn
                have hnpod : n ≠ pod.Name :=
                  fun hc => hn (by rw [List.map_cons, hc]; exact List.mem_cons_self _ _)
                have hside : n ∉ rest.map Pod.Name :=
                  fun hc => hn (by rw [List.map_cons]; exact List.mem_cons_of_mem _ hc)
                rw [huntouched n hside]
                exact hPuntouched n hnpod
              · intro p hp
                rcases List.mem_cons.mp hp with h | h
                · subst h
                  have hstep : findPod w' p.Name = findPod (patchWorld w pr) p.Name :=
                    huntouched p.Name Hnd.1
                  refine ⟨pr.newPod, hstep.trans hPself, hPnm, hPns2, ?_, hPframe⟩
                  rw [hon]
                  simpa using hProle
                · exact hper p h
          | false =>
              -- not online and no role label: nothing to do
              obtain ⟨w', Δ, hrun, htr, hH1, hnames, hdesc, huntouched, hper⟩ :=
                ih w tr H1 hfindtl hcltl Hnd.2 hloctl
              refine ⟨w', Δ, ?_, ?_, hH1, hnames, hdesc, ?_, ?_⟩
              · rw [relabelNP_skip_offline hon hhr]
                exact hrun
              · rw [htr, List.filter_cons,
                  if_neg (by simp [step4Patches, hon, hhr])]
              · intro n hn
                exact huntouched n
                  (fun hc => hn (by rw [List.map_cons]; exact List.mem_cons_of_mem _ hc))
              · intro p hp
                rcases List.mem_cons.mp hp with h | h
                · subst h
                  have hstep : findPod w' p.Name = findPod w p.Name :=
                    huntouched p.Name Hnd.1
                  refine ⟨p, hstep.trans hpodw, rfl, rfl, ?_, fun _ _ => rfl⟩
                  rw [hon]
                  unfold hasRoleMatches at hhr
                  rw [hpodcl, Bool.true_and] at hhr
                  cases hx : lookupLabel p.Labels LabelMySQLClusterRole with
                  | none => simp
                  | some v => rw [hx] at hhr; simp at hhr
                · exact hper p h
      | true =>
          cases hsec : secondaryMatches cn pod.Labels with
          | false =>
              -- online, not local, not yet secondary: label it secondary
              obtain ⟨pr, hpr⟩ := updateRole_total pod MySQLClusterRoleSecondary hpodnn
              obtain ⟨hold, hPns, hPnames, hPdesc, hPuntouched, hPself, hPnm, hPns2, hProle,
                hPframe⟩ := patchStep_facts H1 hpodw hpr
              have hfind2 : ∀ p ∈ rest, findPod (patchWorld w pr) p.Name = some p := by
                intro p hp
                rw [hPuntouched p.Name
                  (fun hc => Hnd.1 (hc ▸ List.mem_map_of_mem Pod.Name hp))]
                exact hfindtl p hp
              obtain ⟨w', Δr, hrun, htr, hH1, hnames, hdesc, huntouched, hper⟩ :=
                ih (patchWorld w pr) (tr ++ [pr]) hPns hfind2 hcltl Hnd.2 hloctl
              have hbne : (pod.Name != li.Name) = true := by simp [hpodli]
              refine ⟨w', pr :: Δr, ?_, ?_, hH1, hnames.trans hPnames,
                descends_trans hdesc hPdesc, ?_, ?_⟩
              · rw [relabelNP_label_online hon (by rw [hbne, hsec]; rfl), doPatch_none hpr]
                show relabelNonPrimaries none status li cn rest (patchWorld w pr, tr ++ [pr]) =
                  ((w', tr ++ (pr :: Δr)), none)
                rw [hrun, List.append_assoc]
                rfl
              · simp only [List.map_cons, List.filter_cons]
                rw [if_pos (show step4Patches status li cn pod = true by
                  simp [step4Patches, hon, hsec, hbne])]
                rw [htr, hold]
              · intro n hn
                have hnpod : n ≠ pod.Name :=
                  fun hc => hn (by rw [List.map_cons, hc]; exact List.mem_cons_self _ _)
                have hside : n ∉ rest.map Pod.Name :=
                  fun hc => hn (by rw [List.map_cons]; exact List.mem_cons_of_mem _ hc)
                rw [huntouched n hside]
                exact hPuntouched n hnpod
              · intro p hp
                rcases List.mem_cons.mp hp with h | h
                · subst h
                  have hstep : findPod w' p.Name = findPod (patchWorld w pr) p.Name :=
                    huntouched p.Name Hnd.1
                  refine ⟨pr.newPod, hstep.trans hPself, hPnm, hPns2, ?_, hPframe⟩
                  rw [hon]
                  simpa [MySQLClusterRoleSecondary] using hProle
                · exact hper p h
          | true =>
              -- online and already secondary: nothing to do
              obtain ⟨w', Δ, hrun, htr, hH1, hnames, hdesc, huntouched, hper⟩ :=
                ih w tr H1 hfindtl hcltl Hnd.2 hloctl
              refine ⟨w', Δ, ?_, ?_, hH1, hnames, hdesc, ?_, ?_⟩
              · rw [relabelNP_skip_online hon (by simp [hsec])]
                exact hrun
              · rw [htr, List.filter_cons,
                  if_neg (by simp [step4Patches, hon, hsec])]
              · intro n hn
                exact huntouched n
                  (fun hc => hn (by rw [List.map_cons]; exact List.mem_cons_of_mem _ hc))
              · intro p hp
                rcases List.mem_cons.mp hp with h | h
                · subst h
                  have hstep : findPod w' p.Name = findPod w p.Name :=
                    huntouched p.Name Hnd.1
                  refine ⟨p, hstep.trans hpodw, rfl, rfl, ?_, fun _ _ => rfl⟩
                  rw [hon]
                  unfold secondaryMatches at hsec
                  rw [hpodcl, Bool.true_and] at hsec
                  exact beq_iff_eq.mp hsec
                · exact hper p h

/-- Behaviour of step 4 of a pass, starting from a world in which the pod
named like the local instance is labeled primary and no other pod is: the
step succeeds, patches only pods whose role disagrees with their topology
state (never twice the same pod, never the local pod), and afterwards every
pod carries exactly the role determined by the topology. -/
theorem syncFinish_spec (status : ClusterStatus) (li : Instance) (cn ns : String)
    (w2 : World) (trB : List PatchRec)
    (hH1 : ∀ q ∈ w2, q.Namespace = ns)
    (hnd : (w2.map Pod.Name).Nodup)
    (hcl : ∀ q ∈ w2, clusterMatches cn q.Labels = true)
    (honly : ∀ q ∈ w2, q.Name ≠ li.Name →
      lookupLabel q.Labels LabelMySQLClusterRole ≠ some MySQLClusterRolePrimary)
    (hloc : ∃ pB, findPod w2 li.Name = some pB ∧
      lookupLabel pB.Labels LabelMySQLClusterRole = some MySQLClusterRolePrimary) :
    ∃ w3 Δc,
      relabelNonPrimaries none status li cn (listPods w2 ns (nonPrimaryMatches cn)) (w2, trB) =
        ((w3, trB ++ Δc), none) ∧
      (∀ q ∈ w3, q.Namespace = ns) ∧
      w3.map Pod.Name = w2.map Pod.Name ∧
      descends w3 w2 ∧
      (∀ r ∈ Δc, r.oldPod ∈ w2 ∧ r.oldPod.Name ≠ li.Name ∧
        lookupLabel r.oldPod.Labels LabelMySQLClusterRole ≠
          desiredRoleLabel status li r.oldPod.Name) ∧
      (Δc.map (fun r => r.oldPod.Name)).Nodup ∧
      (∀ q ∈ w3, lookupLabel q.Labels LabelMySQLClusterRole =
        desiredRoleLabel status li q.Name) := by
  obtain ⟨pB, hpB, hpBrole⟩ := hloc
  have hLc_find : ∀ p ∈ listPods w2 ns (nonPrimaryMatches cn), findPod w2 p.Name = some p :=
    fun p hp => findPod_of_mem_nodup hnd (mem_listPods.mp hp).1
  have hLc_cl : ∀ p ∈ listPods w2 ns (nonPrimaryMatches cn), clusterMatches cn p.Labels = true :=
    fun p hp => hcl p (mem_listPods.mp hp).1
  have hLc_nodup : ((listPods w2 ns (nonPrimaryMatches cn)).map Pod.Name).Nodup :=
    listPods_nodup hnd
  have hLc_loc : ∀ p ∈ listPods w2 ns (nonPrimaryMatches cn), p.Name ≠ li.Name := by
    intro p hp hc
    have hfp := hLc_find p hp
    rw [hc, hpB] at hfp
    have hpeq : pB = p := by injection hfp
    have hnp := (mem_listPods.mp hp).2.2
    unfold nonPrimaryMatches at hnp
    rw [hLc_cl p hp, Bool.true_and, ← hpeq, hpBrole] at hnp
    simp at hnp
  obtain ⟨w3, Δc, hrun, htr, hH1C, hnamesC, hdescC, huntC, hperC⟩ :=
    relabelNonPrimaries_spec status li cn ns (listPods w2 ns (nonPrimaryMatches cn)) w2 trB
      hH1 hLc_find hLc_cl hLc_nodup hLc_loc
  have hmemΔ : ∀ r ∈ Δc, r.oldPod ∈ listPods w2 ns (nonPrimaryMatches cn) ∧
      step4Patches status li cn r.oldPod = true := by
    intro r hr
    have : r.oldPod ∈ Δc.map (fun r => r.oldPod) := List.mem_map_of_mem _ hr
    rw [htr] at this
    exact List.mem_filter.mp this
  refine ⟨w3, Δc, hrun, hH1C, hnamesC, hdescC, ?_, ?_, ?_⟩
  · intro r hr
    obtain ⟨hrL, hrstep⟩ := hmemΔ r hr
    have hrw2 : r.oldPod ∈ w2 := (mem_listPods.mp hrL).1
    have hrli : r.oldPod.Name ≠ li.Name := hLc_loc _ hrL
    refine ⟨hrw2, hrli, ?_⟩
    unfold desiredRoleLabel
    rw [if_neg hrli]
    cases hon : memberOnline status li r.oldPod with
    | false =>
        have hhr : hasRoleMatches cn r.oldPod.Labels = true := by
          have h := hrstep
          unfold step4Patches at h
          rw [hon] at h
          simpa using h
        unfold hasRoleMatches at hhr
        rw [hLc_cl _ hrL, Bool.true_and] at hhr
        have hmon : memberOnlineName status li r.oldPod.Name = false := hon
        rw [hmon, if_neg (by simp : ¬(false = true))]
        intro hc
        rw [hc] at hhr
        simp at hhr
    | true =>
        have hstep2 : ((r.oldPod.Name != li.Name) && !(secondaryMatches cn r.oldPod.Labels))
            = true := by
          have h := hrstep
          unfold step4Patches at h
          rwa [hon, show (!true) = false from rfl,
            if_neg (by simp : ¬(false = true))] at h
        have h2 : (r.oldPod.Name != li.Name) = true ∧
            (!(secondaryMatches cn r.oldPod.Labels)) = true := by
          rw [← Bool.and_eq_true]
          exact hstep2
        have hsec : secondaryMatches cn r.oldPod.Labels = false := by
          cases hx : secondaryMatches cn r.oldPod.Labels with
          | false => rfl
          | true => rw [hx] at h2; exact absurd h2.2 (by simp)
        unfold secondaryMatches at hsec
        rw [hLc_cl _ hrL, Bool.true_and] at hsec
        have hmon : memberOnlineName status li r.oldPod.Name = true := hon
        rw [hmon, if_pos rfl]
        intro hc
        rw [hc] at hsec
        simp at hsec
  · have : Δc.map (fun r => r.oldPod.Name) = (Δc.map (fun r => r.oldPod)).map Pod.Name := by
      rw [List.map_map]
      rfl
    rw [this, htr]
    exact ((List.filter_sublist _).map Pod.Name).nodup hLc_nodup
  · intro q hq
    have hndC : (w3.map Pod.Name).Nodup := by rw [hnamesC]; exact hnd
    have hfq : findPod w3 q.Name = some q := findPod_of_mem_nodup hndC hq
    by_cases hqli : q.Name = li.Name
    · have hnotin : li.Name ∉ (listPods w2 ns (nonPrimaryMatches cn)).map Pod.Name := by
        intro hc
        obtain ⟨p, hp, hpn⟩ := List.mem_map.mp hc
        exact hLc_loc p hp hpn
      rw [hqli, huntC li.Name hnotin, hpB] at hfq
      have hqB : pB = q := by injection hfq
      unfold desiredRoleLabel
      rw [if_pos hqli, ← hqB]
      exact hpBrole
    · have hin : q.Name ∈ (listPods w2 ns (nonPrimaryMatches cn)).map Pod.Name := by
        by_contra hnot
        rw [huntC _ hnot] at hfq
        have hmem2 : q ∈ w2 := (findPod_mem hfq).1
        have hq2 : q ∈ listPods w2 ns (nonPrimaryMatches cn) := by
          refine mem_listPods.mpr ⟨hmem2, hH1 q hmem2, ?_⟩
          unfold nonPrimaryMatches
          rw [hcl q hmem2, Bool.true_and, Bool.not_eq_true']
          exact beq_eq_false_iff_ne.mpr (honly q hmem2 hqli)
        exact hnot (List.mem_map_of_mem Pod.Name hq2)
      obtain ⟨p, hp, hpn⟩ := List.mem_map.mp hin
      obtain ⟨p', hfp', hp'n, _, hp'role, _⟩ := hperC p hp
      rw [hpn] at hfp'
      rw [hfq] at hfp'
      have hqp' : q = p' := by injection hfp'
      unfold desiredRoleLabel
      rw [if_neg hqli, hqp', hp'n]
      exact hp'role

theorem syncHandler_unfold {failAt : Option Nat} {clc : LabelerCtl} {w : World}
    {key : String} {status : ClusterStatus}
    (Hs : storeGetByKey clc.store key = some status) :
    syncHandler failAt clc w key =
      syncRest failAt status clc.localInstance
        ((listPods w clc.localInstance.Namespace
            (primaryMatches clc.localInstance.ClusterName)).any
          (fun p => p.Name == clc.localInstance.Name))
        (relabelPrimaries failAt status clc.localInstance
          (listPods w clc.localInstance.Namespace
            (primaryMatches clc.localInstance.ClusterName))
          (w, [])) := by
  unfold syncHandler
  rw [Hs]

theorem syncRest_err (f : Option Nat) (status : ClusterStatus) (li : Instance) (b : Bool)
    (st : PassSt) (e : SyncErr) : syncRest f status li b (st, some e) = (st, some e) := rfl

theorem syncRest_true (f : Option Nat) (status : ClusterStatus) (li : Instance)
    (wA : World) (trA : List PatchRec) :
    syncRest f status li true ((wA, trA), none) =
      relabelNonPrimaries f status li li.ClusterName
        (listPods wA li.Namespace (nonPrimaryMatches li.ClusterName)) (wA, trA) := rfl

theorem syncRest_getPod_none (f : Option Nat) (status : ClusterStatus) (li : Instance)
    (wA : World) (trA : List PatchRec)
    (h : getPod wA li.Namespace li.Name = none) :
    syncRest f status li false ((wA, trA), none) = ((wA, trA), some SyncErr.getPodFailed) := by
  simp [syncRest, h]

theorem syncRest_patch_ok (f : Option Nat) (status : ClusterStatus) (li : Instance)
    (wA : World) (trA : List PatchRec) (primary : Pod) (st' : PassSt)
    (h : getPod wA li.Namespace li.Name = some primary)
    (hd : doPatch f ((wA, trA) : PassSt) primary MySQLClusterRolePrimary = (st', none)) :
    syncRest f status li false ((wA, trA), none) =
      relabelNonPrimaries f status li li.ClusterName
        (listPods st'.1 li.Namespace (nonPrimaryMatches li.ClusterName)) st' := by
  simp [syncRest, h, hd]

theorem syncRest_patch_err (f : Option Nat) (status : ClusterStatus) (li : Instance)
    (wA : World) (trA : List PatchRec) (primary : Pod) (st' : PassSt) (e : SyncErr)
    (h : getPod wA li.Namespace li.Name = some primary)
    (hd : doPatch f ((wA, trA) : PassSt) primary MySQLClusterRolePrimary = (st', some e)) :
    syncRest f status li false ((wA, trA), none) = (st', some e) := by
  simp [syncRest, h, hd]

/-- Full postcondition of a successful fault-free pass over a well-formed
world of cluster pods: the final world has the same pod names and
namespaces, every pod carries exactly the role determined by the topology
(primary for the local name, secondary for other ONLINE members, no role
otherwise) with all other labels intact, a pod named like the local instance
exists, and no pod name is patched twice. -/
theorem syncHandler_master (clc : LabelerCtl) (w : World) (key : String)
    (status : ClusterStatus)
    (H1 : ∀ p ∈ w, p.Namespace = clc.localInstance.Namespace)
    (H2 : (w.map Pod.Name).Nodup)
    (H3 : ∀ p ∈ w, clusterMatches clc.localInstance.ClusterName p.Labels = true)
    (Hs : storeGetByKey clc.store key = some status)
    (w' : World) (tr : List PatchRec)
    (Hrun : syncHandler none clc w key = ((w', tr), none)) :
    (∀ q ∈ w', q.Namespace = clc.localInstance.Namespace) ∧
    w'.map Pod.Name = w.map Pod.Name ∧
    descends w' w ∧
    (∀ q ∈ w', lookupLabel q.Labels LabelMySQLClusterRole =
      desiredRoleLabel status clc.localInstance q.Name) ∧
    (∃ q ∈ w', q.Name = clc.localInstance.Name) ∧
    (tr.map (fun r => r.oldPod.Name)).Nodup := by
  have hLa_find : ∀ p ∈ listPods w clc.localInstance.Namespace
      (primaryMatches clc.localInstance.ClusterName), findPod w p.Name = some p :=
    fun p hp => findPod_of_mem_nodup H2 (mem_listPods.mp hp).1
  have hLa_nn : ∀ p ∈ listPods w clc.localInstance.Namespace
      (primaryMatches clc.localInstance.ClusterName), p.Labels ≠ none :=
    fun p hp => clusterMatches_ne_none (H3 p (mem_listPods.mp hp).1)
  obtain ⟨w1, Δa, hrunA, htrA, hH1A, hnamesA, hdescA, huntA, hperA⟩ :=
    relabelPrimaries_spec status clc.localInstance clc.localInstance.Namespace
      (listPods w clc.localInstance.Namespace (primaryMatches clc.localInstance.ClusterName))
      w [] H1 hLa_find hLa_nn (listPods_nodup H2)
  rw [List.nil_append] at hrunA
  have hndA : (w1.map Pod.Name).Nodup := by rw [hnamesA]; exact H2
  have hclA : ∀ q ∈ w1, clusterMatches clc.localInstance.ClusterName q.Labels = true := by
    intro q hq
    obtain ⟨p, hp, _, _, hframe⟩ := hdescA q hq
    rw [clusterMatches_of_frame hframe]
    exact H3 p hp
  have honlyA : ∀ q ∈ w1, q.Name ≠ clc.localInstance.Name →
      lookupLabel q.Labels LabelMySQLClusterRole ≠ some MySQLClusterRolePrimary := by
    intro q hq hne hrole
    have hfq : findPod w1 q.Name = some q := findPod_of_mem_nodup hndA hq
    by_cases hin : q.Name ∈ (listPods w clc.localInstance.Namespace
        (primaryMatches clc.localInstance.ClusterName)).map Pod.Name
    · obtain ⟨p, hp, hpn⟩ := List.mem_map.mp hin
      obtain ⟨p', hfp', _, _, hp'role, _⟩ := hperA p hp (by rw [hpn]; exact hne)
      rw [hpn, hfq] at hfp'
      have hqp' : q = p' := by injection hfp'
      rw [← hqp', hrole] at hp'role
      cases hon : memberOnline status clc.localInstance p with
      | true =>
          rw [hon, if_pos rfl] at hp'role
          have : MySQLClusterRolePrimary = MySQLClusterRoleSecondary := by
            injection hp'role
          exact absurd this (by decide)
      | false =>
          rw [hon, if_neg (by simp : ¬(false = true))] at hp'role
          exact Option.noConfusion hp'role
    · rw [huntA q.Name (Or.inl hin)] at hfq
      have hqw : q ∈ w := (findPod_mem hfq).1
      have hqLa : q ∈ listPods w clc.localInstance.Namespace
          (primaryMatches clc.localInstance.ClusterName) := by
        refine mem_listPods.mpr ⟨hqw, H1 q hqw, ?_⟩
        unfold primaryMatches
        rw [H3 q hqw, Bool.true_and, hrole]
        exact beq_self_eq_true _
      exact hin (List.mem_map_of_mem Pod.Name hqLa)
  have hsyncEq : syncHandler none clc w key =
      syncRest none status clc.localInstance
        ((listPods w clc.localInstance.Namespace
            (primaryMatches clc.localInstance.ClusterName)).any
          (fun p => p.Name == clc.localInstance.Name)) ((w1, Δa), none) := by
    rw [syncHandler_unfold Hs, hrunA]
  have hmid : ∃ w2 Δb,
      syncHandler none clc w key =
        relabelNonPrimaries none status clc.localInstance clc.localInstance.ClusterName
          (listPods w2 clc.localInstance.Namespace
            (nonPrimaryMatches clc.localInstance.ClusterName)) (w2, Δa ++ Δb) ∧
      (∀ q ∈ w2, q.Namespace = clc.localInstance.Namespace) ∧
      w2.map Pod.Name = w1.map Pod.Name ∧
      descends w2 w1 ∧
      (∀ n, n ≠ clc.localInstance.Name → findPod w2 n = findPod w1 n) ∧
      (∃ pB, findPod w2 clc.localInstance.Name = some pB ∧
        lookupLabel pB.Labels LabelMySQLClusterRole = some MySQLClusterRolePrimary) ∧
      (Δb.map (fun r => r.oldPod.Name) = [] ∨
        Δb.map (fun r => r.oldPod.Name) = [clc.localInstance.Name]) := by
    cases hpl : (listPods w clc.localInstance.Namespace
        (primaryMatches clc.localInstance.ClusterName)).any
        (fun p => p.Name == clc.localInstance.Name) with
    | true =>
        have hsync2 : syncHandler none clc w key =
            relabelNonPrimaries none status clc.localInstance clc.localInstance.ClusterName
              (listPods w1 clc.localInstance.Namespace
                (nonPrimaryMatches clc.localInstance.ClusterName)) (w1, Δa) := by
          rw [hsyncEq, hpl, syncRest_true]
        obtain ⟨p, hp, hpn0⟩ := List.any_eq_true.mp hpl
        have hpn' : p.Name = clc.localInstance.Name := beq_iff_eq.mp hpn0
        refine ⟨w1, [], by rw [List.append_nil]; exact hsync2, hH1A, rfl, descends_refl w1,
          fun n _ => rfl, ⟨p, ?_, ?_⟩, Or.inl rfl⟩
        · rw [huntA clc.localInstance.Name (Or.inr rfl)]
          have h := hLa_find p hp
          rw [hpn'] at h
          exact h
        · have hpm := (mem_listPods.mp hp).2.2
          unfold primaryMatches at hpm
          have h2 : clusterMatches clc.localInstance.ClusterName p.Labels = true ∧
              (lookupLabel p.Labels LabelMySQLClusterRole == some MySQLClusterRolePrimary)
                = true := by
            rw [← Bool.and_eq_true]
            exact hpm
          exact beq_iff_eq.mp h2.2
    | false =>
        cases hloc1 : findPod w1 clc.localInstance.Name with
        | none =>
            have hgp : getPod w1 clc.localInstance.Namespace clc.localInstance.Name = none := by
              rw [getPod_eq_findPod _ hH1A, hloc1]
            have hsync2 : syncHandler none clc w key = ((w1, Δa), some SyncErr.getPodFailed) := by
              rw [hsyncEq, hpl, syncRest_getPod_none none status clc.localInstance w1 Δa hgp]
            rw [Hrun] at hsync2
            simp at hsync2
        | some primaryPod =>
            have hpn : primaryPod.Name = clc.localInstance.Name := (findPod_mem hloc1).2
            have hpmem : primaryPod ∈ w1 := (findPod_mem hloc1).1
            obtain ⟨pr, hpr⟩ := updateRole_total primaryPod MySQLClusterRolePrimary
              (clusterMatches_ne_none (hclA _ hpmem))
            obtain ⟨hold, hPns, hPnames, hPdesc, hPunt, hPself, hPnm, hPns2, hProle, hPframe⟩ :=
              patchStep_facts hH1A (by rw [hpn]; exact hloc1) hpr
            have hgp : getPod w1 clc.localInstance.Namespace clc.localInstance.Name =
                some primaryPod := by
              rw [getPod_eq_findPod _ hH1A, hloc1]
            have hsync2 : syncHandler none clc w key =
                relabelNonPrimaries none status clc.localInstance clc.localInstance.ClusterName
                  (listPods (patchWorld w1 pr) clc.localInstance.Namespace
                    (nonPrimaryMatches clc.localInstance.ClusterName))
                  (patchWorld w1 pr, Δa ++ [pr]) := by
              rw [hsyncEq, hpl, syncRest_patch_ok none status clc.localInstance w1 Δa primaryPod
                ((patchWorld w1 pr, Δa ++ [pr]) : PassSt) hgp (doPatch_none hpr)]
            refine ⟨patchWorld w1 pr, [pr], hsync2, hPns, hPnames, hPdesc, ?_,
              ⟨pr.newPod, ?_, ?_⟩, Or.inr ?_⟩
            · intro n hn
              exact hPunt n (by rw [hpn]; exact hn)
            · rw [← hpn]
              exact hPself
            · rw [hProle, if_neg (by decide : ¬(MySQLClusterRolePrimary = ""))]
            · simp only [List.map_cons, List.map_nil]
              rw [hold, hpn]
  obtain ⟨w2, Δb, hsync, hH1B, hnamesB, hdescB, huntB, ⟨pB, hpB, hpBrole⟩, hΔb⟩ := hmid
  have hndB : (w2.map Pod.Name).Nodup := by rw [hnamesB]; exact hndA
  have hclB : ∀ q ∈ w2, clusterMatches clc.localInstance.ClusterName q.Labels = true := by
    intro q hq
    obtain ⟨p, hp, _, _, hframe⟩ := hdescB q hq
    rw [clusterMatches_of_frame hframe]
    exact hclA p hp
  have honlyB : ∀ q ∈ w2, q.Name ≠ clc.localInstance.Name →
      lookupLabel q.Labels LabelMySQLClusterRole ≠ some MySQLClusterRolePrimary := by
    intro q hq hne
    have hfq : findPod w2 q.Name = some q := findPod_of_mem_nodup hndB hq
    rw [huntB q.Name hne] at hfq
    exact honlyA q (findPod_mem hfq).1 hne
  obtain ⟨w3, Δc, hrunC, hH1C, hnamesC, hdescC, hΔcfacts, hΔcnodup, hroles⟩ :=
    syncFinish_spec status clc.localInstance clc.localInstance.ClusterName
      clc.localInstance.Namespace w2 (Δa ++ Δb) hH1B hndB hclB honlyB ⟨pB, hpB, hpBrole⟩
  have hfinal := hsync.trans hrunC
  rw [Hrun] at hfinal
  have hw' : w' = w3 := by
    have h := congrArg (fun x => x.1.1) hfinal
    simpa using h
  have htr' : tr = (Δa ++ Δb) ++ Δc := by
    have h := congrArg (fun x => x.1.2) hfinal
    simpa using h
  rw [hw', htr']
  refine ⟨hH1C, ?_, descends_trans (descends_trans hdescC hdescB) hdescA, hroles, ?_, ?_⟩
  · rw [hnamesC, hnamesB, hnamesA]
  · have hmemname : clc.localInstance.Name ∈ w3.map Pod.Name := by
      rw [hnamesC]
      have hpBmem : pB ∈ w2 := (findPod_mem hpB).1
      have hpBn : pB.Name = clc.localInstance.Name := (findPod_mem hpB).2
      rw [← hpBn]
      exact List.mem_map_of_mem Pod.Name hpBmem
    obtain ⟨q, hfq⟩ := Option.isSome_iff_exists.mp (findPod_isSome_iff.mpr hmemname)
    exact ⟨q, (findPod_mem hfq).1, (findPod_mem hfq).2⟩
  · have hΔa_nodup : (Δa.map (fun r => r.oldPod.Name)).Nodup := by
      rw [htrA]
      exact ((List.filter_sublist _).map Pod.Name).nodup (listPods_nodup H2)
    have hΔa_ne_li : ∀ n ∈ Δa.map (fun r => r.oldPod.Name), n ≠ clc.localInstance.Name := by
      intro n hn
      rw [htrA] at hn
      obtain ⟨p, hp, hpn⟩ := List.mem_map.mp hn
      have hbne := (List.mem_filter.mp hp).2
      rw [← hpn]
      intro hc
      rw [hc] at hbne
      simp at hbne
    have hΔa_desired : ∀ n ∈ Δa.map (fun r => r.oldPod.Name),
        ∃ q, findPod w2 n = some q ∧
          lookupLabel q.Labels LabelMySQLClusterRole =
            desiredRoleLabel status clc.localInstance n := by
      intro n hn
      rw [htrA] at hn
      obtain ⟨p, hp0, hpn⟩ := List.mem_map.mp hn
      have hpLa := (List.mem_filter.mp hp0).1
      have hpne : p.Name ≠ clc.localInstance.Name := by
        have hbne := (List.mem_filter.mp hp0).2
        intro hc
        rw [hc] at hbne
        simp at hbne
      obtain ⟨p', hfp', hp'n, _, hp'role, _⟩ := hperA p hpLa hpne
      refine ⟨p', ?_, ?_⟩
      · rw [← hpn, huntB p.Name hpne]
        exact hfp'
      · rw [← hpn]
        unfold desiredRoleLabel
        rw [if_neg hpne]
        exact hp'role
    have hΔc_ne : ∀ n ∈ Δc.map (fun r => r.oldPod.Name),
        n ∉ Δa.map (fun r => r.oldPod.Name) ∧ n ≠ clc.localInstance.Name := by
      intro n hn
      obtain ⟨r, hr, hrn⟩ := List.mem_map.mp hn
      obtain ⟨hrw2, hrli, hrrole⟩ := hΔcfacts r hr
      constructor
      · intro hin
        obtain ⟨q, hfq, hqrole⟩ := hΔa_desired n hin
        have hfr : findPod w2 n = some r.oldPod := by
          rw [← hrn]
          exact findPod_of_mem_nodup hndB hrw2
        rw [hfr] at hfq
        have hq : r.oldPod = q := by injection hfq
        rw [← hq] at hqrole
        exact hrrole (by rw [hrn]; exact hqrole)
      · rw [← hrn]
        exact hrli
    rw [List.map_append, List.map_append]
    refine List.Nodup.append (List.Nodup.append hΔa_nodup ?_ ?_) hΔcnodup ?_
    · rcases hΔb with h | h
      · rw [h]; exact List.nodup_nil
      · rw [h]; exact List.nodup_singleton _
    · rcases hΔb with h | h
      · rw [h]; exact fun a _ hb => absurd hb (List.not_mem_nil a)
      · rw [h]
        intro a ha hb
        exact hΔa_ne_li a ha (List.mem_singleton.mp hb)
    · intro a ha hc
      obtain ⟨h1, h2⟩ := hΔc_ne a hc
      rcases List.mem_append.mp ha with ha' | ha'
      · exact h1 ha'
      · rcases hΔb with h | h
        · rw [h] at ha'
          exact absurd ha' (List.not_mem_nil a)
        · rw [h] at ha'
          exact h2 (List.mem_singleton.mp ha')

theorem descends_clusterMatches {w' w : World} {cn : String}
    (hdesc : descends w' w) (H3 : ∀ p ∈ w, clusterMatches cn p.Labels = true) :
    ∀ q ∈ w', clusterMatches cn q.Labels = true := by
  intro q hq
  obtain ⟨p, hp, _, _, hframe⟩ := hdesc q hq
  rw [clusterMatches_of_frame hframe]
  exact H3 p hp

theorem desired_eq_primary_iff (status : ClusterStatus) (li : Instance) (n : String) :
    desiredRoleLabel status li n = some MySQLClusterRolePrimary ↔ n = li.Name := by
  unfold desiredRoleLabel
  by_cases h : n = li.Name
  · simp [h]
  · rw [if_neg h]
    constructor
    · intro hc
      cases hon : memberOnlineName status li n with
      | true =>
          rw [hon, if_pos rfl] at hc
          have h2 : MySQLClusterRoleSecondary = MySQLClusterRolePrimary := by injection hc
          exact absurd h2 (by decide)
      | false =>
          rw [hon, if_neg (by simp : ¬(false = true))] at hc
          exact Option.noConfusion hc
    · intro hc
      exact absurd hc h

theorem filter_length_one {w : World} {sel : Pod → Bool} {n : String}
    (hnd : (w.map Pod.Name).Nodup)
    (hex : ∃ q ∈ w, q.Name = n ∧ sel q = true)
    (huniq : ∀ q ∈ w, sel q = true → q.Name = n) :
    (w.filter sel).length = 1 := by
  induction w with
  | nil =>
      obtain ⟨q, hq, _⟩ := hex
      exact absurd hq (List.not_mem_nil q)
  | cons hd tl ih =>
      rw [List.map_cons, List.nodup_cons] at hnd
      by_cases hsel : sel hd = true
      · rw [List.filter_cons, if_pos hsel]
        have htl : tl.filter sel = [] := by
          rw [List.filter_eq_nil_iff]
          intro q hq hq2
          have h1 : hd.Name = n := huniq hd (List.mem_cons_self _ _) hsel
          have h2 : q.Name = n := huniq q (List.mem_cons_of_mem _ hq) hq2
          exact hnd.1 (by rw [h1, ← h2]; exact List.mem_map_of_mem _ hq)
        rw [htl]
        rfl
      · rw [List.filter_cons, if_neg hsel]
        refine ih hnd.2 ?_ (fun q hq hsq => huniq q (List.mem_cons_of_mem _ hq) hsq)
        obtain ⟨q, hq, hqn, hqsel⟩ := hex
        rcases List.mem_cons.mp hq with h | h
        · rw [← h] at hsel
          exact absurd hqsel hsel
        · exact ⟨q, h, hqn, hqsel⟩

theorem relabelPrimaries_skip (f : Option Nat) (status : ClusterStatus) (li : Instance) :
    ∀ (L : List Pod) (st : PassSt), (∀ p ∈ L, p.Name = li.Name) →
      relabelPrimaries f status li L st = (st, none) := by
  intro L
  induction L with
  | nil => intro st _; rfl
  | cons pod rest ih =>
      intro st h
      simp only [relabelPrimaries, if_pos (h pod (List.mem_cons_self _ _))]
      exact ih st (fun p hp => h p (List.mem_cons_of_mem _ hp))

theorem relabelNonPrimaries_skip (f : Option Nat) (status : ClusterStatus) (li : Instance)
    (cn : String) :
    ∀ (L : List Pod) (st : PassSt), (∀ p ∈ L, step4Patches status li cn p = false) →
      relabelNonPrimaries f status li cn L st = (st, none) := by
  intro L
  induction L with
  | nil => intro st _; rfl
  | cons pod rest ih =>
      intro st h
      have hp := h pod (List.mem_cons_self _ _)
      unfold step4Patches at hp
      cases hon : memberOnline status li pod with
      | false =>
          rw [hon] at hp
          have hhr : hasRoleMatches cn pod.Labels = false := by
            rwa [if_pos (show (!false) = true from rfl)] at hp
          rw [relabelNP_skip_offline hon hhr]
          exact ih st (fun p hp' => h p (List.mem_cons_of_mem _ hp'))
      | true =>
          rw [hon] at hp
          have hcond : ((pod.Name != li.Name) && !(secondaryMatches cn pod.Labels)) = false := by
            rwa [show (!true) = false from rfl, if_neg (by simp : ¬(false = true))] at hp
          rw [relabelNP_skip_online hon hcond]
          exact ih st (fun p hp' => h p (List.mem_cons_of_mem _ hp'))

/-! ### Mutation retention -/

theorem applyTrace_append (w : World) (t1 t2 : List PatchRec) :
    applyTrace w (t1 ++ t2) = applyTrace (applyTrace w t1) t2 := by
  simp [applyTrace, List.foldl_append]

theorem doPatch_tracks {w : World} {st : PassSt} (h : st.1 = applyTrace w st.2)
    (f : Option Nat) (pod : Pod) (val : String) :
    (doPatch f st pod val).1.1 = applyTrace w (doPatch f st pod val).1.2 := by
  unfold doPatch
  split
  · exact h
  · split
    · exact h
    · simp only [applyTrace_append, ← h]
      rfl

theorem relabelPrimaries_tracks (f : Option Nat) (status : ClusterStatus) (li : Instance) :
    ∀ (L : List Pod) (w : World) (st : PassSt), st.1 = applyTrace w st.2 →
      (relabelPrimaries f status li L st).1.1 =
        applyTrace w (relabelPrimaries f status li L st).1.2 := by
  intro L
  induction L with
  | nil => intro w st h; exact h
  | cons pod rest ih =>
      intro w st h
      simp only [relabelPrimaries]
      by_cases hloc : pod.Name = li.Name
      · rw [if_pos hloc]
        exact ih w st h
      · rw [if_neg hloc]
        rcases hd : doPatch f st pod
            (if !(memberOnline status li pod) then "" else MySQLClusterRoleSecondary)
          with ⟨st', e⟩
        have h' : st'.1 = applyTrace w st'.2 := by
          have h2 := doPatch_tracks h f pod
            (if !(memberOnline status li pod) then "" else MySQLClusterRoleSecondary)
          rw [hd] at h2
          exact h2
        cases e with
        | none => exact ih w st' h'
        | some e => exact h'

theorem relabelNonPrimaries_tracks (f : Option Nat) (status : ClusterStatus) (li : Instance)
    (cn : String) :
    ∀ (L : List Pod) (w : World) (st : PassSt), st.1 = applyTrace w st.2 →
      (relabelNonPrimaries f status li cn L st).1.1 =
        applyTrace w (relabelNonPrimaries f status li cn L st).1.2 := by
  intro L
  induction L with
  | nil => intro w st h; exact h
  | cons pod rest ih =>
      intro w st h
      cases hon : memberOnline status li pod with
      | false =>
          cases hhr : hasRoleMatches cn pod.Labels with
          | true =>
              rw [relabelNP_clear_offline hon hhr]
              rcases hd : doPatch f st pod "" with ⟨st', e⟩
              have h' : st'.1 = applyTrace w st'.2 := by
                have h2 := doPatch_tracks h f pod ""
                rw [hd] at h2
                exact h2
              cases e with
              | none => exact ih w st' h'
              | some e => exact h'
          | false =>
              rw [relabelNP_skip_offline hon hhr]
              exact ih w st h
      | true =>
          cases hcond : ((pod.Name != li.Name) && !(secondaryMatches cn pod.Labels)) with
          | true =>
              rw [relabelNP_label_online hon hcond]
              rcases hd : doPatch f st pod MySQLClusterRoleSecondary with ⟨st', e⟩
              have h' : st'.1 = applyTrace w st'.2 := by
                have h2 := doPatch_tracks h f pod MySQLClusterRoleSecondary
                rw [hd] at h2
                exact h2
              cases e with
              | none => exact ih w st' h'
              | some e => exact h'
          | false =>
              rw [relabelNP_skip_online hon hcond]
              exact ih w st h

theorem syncRest_tracks (f : Option Nat) (status : ClusterStatus) (li : Instance)
    (b : Bool) (w : World) (x : PassSt × Option SyncErr)
    (hx : x.1.1 = applyTrace w x.1.2) :
    (syncRest f status li b x).1.1 = applyTrace w (syncRest f status li b x).1.2 := by
  rcases x with ⟨⟨wA, trA⟩, e⟩
  cases e with
  | some e => exact hx
  | none =>
      cases b with
      | true =>
          rw [syncRest_true]
          exact relabelNonPrimaries_tracks f status li li.ClusterName _ w _ hx
      | false =>
          cases hgp : getPod wA li.Namespace li.Name with
          | none =>
              rw [syncRest_getPod_none f status li wA trA hgp]
              exact hx
          | some primary =>
              rcases hd : doPatch f ((wA, trA) : PassSt) primary MySQLClusterRolePrimary
                with ⟨st', e'⟩
              have h' : st'.1 = applyTrace w st'.2 := by
                have h2 := doPatch_tracks hx f primary MySQLClusterRolePrimary
                rw [hd] at h2
                exact h2
              cases e' with
              | none =>
                  rw [syncRest_patch_ok f status li wA trA primary st' hgp hd]
                  exact relabelNonPrimaries_tracks f status li li.ClusterName _ w st' h'
              | some err =>
                  rw [syncRest_patch_err f status li wA trA primary st' err hgp hd]
                  exact h'

/-- Whatever the outcome of a pass — success, a patch failure, or a fetch
failure — the final world is the initial world with exactly the recorded
PatchPod calls applied, in order: the pass never rolls anything back and
never mutates without recording. -/
theorem syncHandler_retention (f : Option Nat) (clc : LabelerCtl) (w : World) (key : String) :
    (syncHandler f clc w key).1.1 = applyTrace w (syncHandler f clc w key).1.2 := by
  cases hs : storeGetByKey clc.store key with
  | none =>
      have heq : syncHandler f clc w key = ((w, []), none) := by
        unfold syncHandler
        rw [hs]
      rw [heq]
      rfl
  | some status =>
      rw [syncHandler_unfold hs]
      exact syncRest_tracks f status clc.localInstance _ w _
        (relabelPrimaries_tracks f status clc.localInstance
          (listPods w clc.localInstance.Namespace (primaryMatches clc.localInstance.ClusterName))
          w (w, []) rfl)

/-! ### Claims C4, C6, C7, C9, C10 -/

/-- C4: when `syncHandler` is dequeued a key for which no snapshot is present
in the store, it returns success, issues no label mutation and leaves the
world unchanged, and `processNextWorkItem` therefore calls `Forget` rather
than `AddRateLimited`, so the key is not retried. -/
theorem C4_stale_key_no_retry (failAt : Option Nat) (clc : LabelerCtl) (w : World) (key : String)
    (h : storeGetByKey clc.store key = none) :
    syncHandler failAt clc w key = ((w, []), none) ∧
    processKeyAction failAt clc w key = some QueueAction.forget := by
  have hs : syncHandler failAt clc w key = ((w, []), none) := by
    unfold syncHandler
    rw [h]
  refine ⟨hs, ?_⟩
  unfold processKeyAction
  rw [hs]

theorem C4_stale_key_no_retry_witness :
    syncHandler none clc0 [podA] "missing" = (([podA], []), none) ∧
    processKeyAction none clc0 [podA] "missing" = some QueueAction.forget :=
  C4_stale_key_no_retry none clc0 [podA] "missing" (by decide)

/-- C6: `EnqueueClusterStatus` returns the `keyFunc` error and changes
neither the store nor the queue when the argument is not a
`*innodb.ClusterStatus`; for a genuine cluster status it stores the snapshot
under its cluster-name key and enqueues that key; and whenever the store add
fails, the state (in particular the queue) is left unchanged. -/
theorem C6_enqueue_contract (st : LabelerState) :
    (∀ t, EnqueueClusterStatus st (StoreObj.other t) =
      (st, some ("expected *innodb.ClusterStatus got " ++ t))) ∧
    (∀ s, EnqueueClusterStatus st (StoreObj.clusterStatus s) =
        ({ store := (s.ClusterName, s) :: st.store.filter (fun p => p.1 != s.ClusterName),
           queue := queueAdd st.queue s.ClusterName }, none) ∧
      storeGetByKey (EnqueueClusterStatus st (StoreObj.clusterStatus s)).1.store s.ClusterName =
        some s) ∧
    (∀ obj e, storeAdd st.store obj = Except.error e → (EnqueueClusterStatus st obj).1 = st) := by
  refine ⟨fun t => rfl, fun s => ⟨rfl, ?_⟩, fun obj e h => ?_⟩
  · simp [EnqueueClusterStatus, keyFunc, storeAdd, storeGetByKey]
  · cases obj with
    | clusterStatus s => simp [storeAdd] at h
    | other t => rfl

theorem C6_enqueue_contract_witness :
    EnqueueClusterStatus st0 (StoreObj.other "int") =
      (st0, some ("expected *innodb.ClusterStatus got " ++ "int")) ∧
    (EnqueueClusterStatus st0 (StoreObj.other "int")).1 = st0 :=
  ⟨(C6_enqueue_contract st0).1 "int",
   (C6_enqueue_contract st0).2.2 (StoreObj.other "int")
     ("expected *innodb.ClusterStatus got " ++ "int") rfl⟩

/-- C7: for every pod and role value, the pair `updateClusterRoleLabel`
submits to PatchPod has the untouched pod as the old object, and a new
object that agrees with it on the name, the namespace, and every label key
other than the role key. -/
theorem C7_patch_touches_only_role (pod : Pod) (val : String) (pr : PatchRec)
    (h : updateClusterRoleLabel pod val = some pr) :
    pr.oldPod = pod ∧ pr.newPod.Name = pod.Name ∧ pr.newPod.Namespace = pod.Namespace ∧
      ∀ k, k ≠ LabelMySQLClusterRole → lookupLabel pr.newPod.Labels k = lookupLabel pod.Labels k := by
  obtain ⟨h1, h2, h3, _, h5⟩ := updateRole_some pod val pr h
  exact ⟨h1, h2, h3, h5⟩

theorem C7_patch_touches_only_role_witness :
    updateClusterRoleLabel podA MySQLClusterRoleSecondary = some prA ∧
    (prA.oldPod = podA ∧ prA.newPod.Name = podA.Name ∧ prA.newPod.Namespace = podA.Namespace ∧
      ∀ k, k ≠ LabelMySQLClusterRole → lookupLabel prA.newPod.Labels k = lookupLabel podA.Labels k) :=
  ⟨by decide, C7_patch_touches_only_role podA MySQLClusterRoleSecondary prA (by decide)⟩

/-- C9: on a pod whose label map is nil, `updateClusterRoleLabel` with any
non-empty role value panics (no patch is produced), while clearing the role
is safe and submits the pod unchanged. -/
theorem C9_nil_label_map (pod : Pod) (hnil : pod.Labels = none) :
    (∀ val, val ≠ "" → updateClusterRoleLabel pod val = none) ∧
    updateClusterRoleLabel pod "" = some { oldPod := pod, newPod := pod } := by
  obtain ⟨pn, pns, plab⟩ := pod
  cases plab with
  | some l => simp at hnil
  | none =>
      constructor
      · intro val hv
        unfold updateClusterRoleLabel
        rw [if_neg hv]
        rfl
      · rfl

theorem C9_nil_label_map_witness :
    (∀ val, val ≠ "" → updateClusterRoleLabel podNil val = none) ∧
    updateClusterRoleLabel podNil "" = some { oldPod := podNil, newPod := podNil } :=
  C9_nil_label_map podNil rfl

/-- C1: after one successful fault-free pass over a well-formed world of
cluster pods, with the address of the local instance ONLINE in the topology,
exactly one member pod is labeled primary and it is the pod named like the
local instance. -/
theorem C1_convergence (clc : LabelerCtl) (w : World) (key : String) (status : ClusterStatus)
    (H1 : ∀ p ∈ w, p.Namespace = clc.localInstance.Namespace)
    (H2 : (w.map Pod.Name).Nodup)
    (H3 : ∀ p ∈ w, clusterMatches clc.localInstance.ClusterName p.Labels = true)
    (Hs : storeGetByKey clc.store key = some status)
    (Hon : inCluster status (podAddress clc.localInstance.Name clc.localInstance.Port) = true)
    (w' : World) (tr : List PatchRec)
    (Hrun : syncHandler none clc w key = ((w', tr), none)) :
    (∃ q ∈ w', q.Name = clc.localInstance.Name ∧
      primaryMatches clc.localInstance.ClusterName q.Labels = true) ∧
    (∀ q ∈ w', primaryMatches clc.localInstance.ClusterName q.Labels = true →
      q.Name = clc.localInstance.Name) ∧
    (w'.filter (fun q => primaryMatches clc.localInstance.ClusterName q.Labels)).length = 1 := by
  obtain ⟨hH1', hnames', hdesc', hroles', ⟨q0, hq0, hq0n⟩, _⟩ :=
    syncHandler_master clc w key status H1 H2 H3 Hs w' tr Hrun
  have hcl' := descends_clusterMatches hdesc' H3
  have hnd' : (w'.map Pod.Name).Nodup := by rw [hnames']; exact H2
  have hq0p : primaryMatches clc.localInstance.ClusterName q0.Labels = true := by
    unfold primaryMatches
    rw [hcl' q0 hq0, Bool.true_and, hroles' q0 hq0,
      (desired_eq_primary_iff status clc.localInstance q0.Name).mpr hq0n]
    exact beq_self_eq_true _
  have huniq : ∀ q ∈ w', primaryMatches clc.localInstance.ClusterName q.Labels = true →
      q.Name = clc.localInstance.Name := by
    intro q hq hqp
    unfold primaryMatches at hqp
    have h2 : clusterMatches clc.localInstance.ClusterName q.Labels = true ∧
        (lookupLabel q.Labels LabelMySQLClusterRole == some MySQLClusterRolePrimary) = true := by
      rw [← Bool.and_eq_true]
      exact hqp
    have hrole := beq_iff_eq.mp h2.2
    rw [hroles' q hq] at hrole
    exact (desired_eq_primary_iff status clc.localInstance q.Name).mp hrole
  exact ⟨⟨q0, hq0, hq0n, hq0p⟩, huniq, filter_length_one hnd' ⟨q0, hq0, hq0n, hq0p⟩ huniq⟩

theorem C1_convergence_witness :
    (∃ q ∈ [podAout, podBout], q.Name = clc0.localInstance.Name ∧
      primaryMatches clc0.localInstance.ClusterName q.Labels = true) ∧
    (∀ q ∈ [podAout, podBout], primaryMatches clc0.localInstance.ClusterName q.Labels = true →
      q.Name = clc0.localInstance.Name) ∧
    ([podAout, podBout].filter
      (fun q => primaryMatches clc0.localInstance.ClusterName q.Labels)).length = 1 :=
  C1_convergence clc0 [podA, podB] "c" status0 (by decide) (by decide) (by decide) (by decide)
    (by decide) [podAout, podBout] trOut (by decide)

/-- C2 (amended): after a successful fault-free pass, every member pod other
than the one named like the local instance whose address is absent from the
topology or not ONLINE bears no role label; the local pod itself is labeled
primary unconditionally, so it is exempt. -/
theorem C2_amended_nonlocal_cleared (clc : LabelerCtl) (w : World) (key : String)
    (status : ClusterStatus)
    (H1 : ∀ p ∈ w, p.Namespace = clc.localInstance.Namespace)
    (H2 : (w.map Pod.Name).Nodup)
    (H3 : ∀ p ∈ w, clusterMatches clc.localInstance.ClusterName p.Labels = true)
    (Hs : storeGetByKey clc.store key = some status)
    (w' : World) (tr : List PatchRec)
    (Hrun : syncHandler none clc w key = ((w', tr), none)) :
    ∀ q ∈ w', q.Name ≠ clc.localInstance.Name →
      memberOnline status clc.localInstance q = false →
      lookupLabel q.Labels LabelMySQLClusterRole = none := by
  obtain ⟨_, _, _, hroles', _, _⟩ := syncHandler_master clc w key status H1 H2 H3 Hs w' tr Hrun
  intro q hq hne hon
  rw [hroles' q hq]
  unfold desiredRoleLabel
  rw [if_neg hne]
  have hon' : memberOnlineName status clc.localInstance q.Name = false := hon
  rw [hon', if_neg (by simp : ¬(false = true))]

theorem C2_amended_nonlocal_cleared_witness :
    lookupLabel podCout.Labels LabelMySQLClusterRole = none :=
  C2_amended_nonlocal_cleared clcNoLocal [podA, podC] "c" statusNoLocal (by decide) (by decide)
    (by decide) (by decide) [podAout, podCout]
    [{ oldPod := podA, newPod := podAout }, { oldPod := podC, newPod := podCout }]
    (by decide) podCout (by decide) (by decide) (by decide)

/-- C2 (counterexample): a successful pass in which the address of the local
instance is absent from the topology still leaves the local pod bearing the
primary role label, so it is false that every pod whose address is absent or
not ONLINE — the local pod included — bears no role label. -/
theorem C2_counterexample :
    (syncHandler none clcNoLocal [podA] "c").2 = none ∧
    ¬ (∀ q ∈ (syncHandler none clcNoLocal [podA] "c").1.1,
        memberOnline statusNoLocal li0 q = false →
        lookupLabel q.Labels LabelMySQLClusterRole = none) := by
  decide

/-- C3: running the pass a second time on the unchanged snapshot, against
the label state produced by a first successful fault-free pass, issues zero
PatchPod calls and leaves the world unchanged. -/
theorem C3_idempotent (clc : LabelerCtl) (w : World) (key : String) (status : ClusterStatus)
    (H1 : ∀ p ∈ w, p.Namespace = clc.localInstance.Namespace)
    (H2 : (w.map Pod.Name).Nodup)
    (H3 : ∀ p ∈ w, clusterMatches clc.localInstance.ClusterName p.Labels = true)
    (Hs : storeGetByKey clc.store key = some status)
    (w' : World) (tr : List PatchRec)
    (Hrun : syncHandler none clc w key = ((w', tr), none)) :
    syncHandler none clc w' key = ((w', []), none) := by
  obtain ⟨hH1', hnames', hdesc', hroles', ⟨q0, hq0, hq0n⟩, _⟩ :=
    syncHandler_master clc w key status H1 H2 H3 Hs w' tr Hrun
  have hcl' := descends_clusterMatches hdesc' H3
  have hallLi : ∀ p ∈ listPods w' clc.localInstance.Namespace
      (primaryMatches clc.localInstance.ClusterName), p.Name = clc.localInstance.Name := by
    intro p hp
    obtain ⟨hpw, _, hpm⟩ := mem_listPods.mp hp
    have h2 : clusterMatches clc.localInstance.ClusterName p.Labels = true ∧
        (lookupLabel p.Labels LabelMySQLClusterRole == some MySQLClusterRolePrimary) = true := by
      rw [← Bool.and_eq_true]
      exact hpm
    have hrole := beq_iff_eq.mp h2.2
    rw [hroles' p hpw] at hrole
    exact (desired_eq_primary_iff status clc.localInstance p.Name).mp hrole
  have hq0p : primaryMatches clc.localInstance.ClusterName q0.Labels = true := by
    unfold primaryMatches
    rw [hcl' q0 hq0, Bool.true_and, hroles' q0 hq0,
      (desired_eq_primary_iff status clc.localInstance q0.Name).mpr hq0n]
    exact beq_self_eq_true _
  have hq0mem : q0 ∈ listPods w' clc.localInstance.Namespace
      (primaryMatches clc.localInstance.ClusterName) :=
    mem_listPods.mpr ⟨hq0, hH1' q0 hq0, hq0p⟩
  have hpl2 : (listPods w' clc.localInstance.Namespace
      (primaryMatches clc.localInstance.ClusterName)).any
      (fun p => p.Name == clc.localInstance.Name) = true :=
    List.any_eq_true.mpr ⟨q0, hq0mem, beq_iff_eq.mpr hq0n⟩
  have hskipC : ∀ p ∈ listPods w' clc.localInstance.Namespace
      (nonPrimaryMatches clc.localInstance.ClusterName),
      step4Patches status clc.localInstance clc.localInstance.ClusterName p = false := by
    intro p hp
    obtain ⟨hpw, hpns, hpnp⟩ := mem_listPods.mp hp
    have hrole := hroles' p hpw
    have hpcl := hcl' p hpw
    have hpli : p.Name ≠ clc.localInstance.Name := by
      intro hc
      unfold nonPrimaryMatches at hpnp
      rw [hpcl, Bool.true_and, hrole,
        (desired_eq_primary_iff status clc.localInstance p.Name).mpr hc] at hpnp
      simp at hpnp
    unfold step4Patches
    cases hon : memberOnline status clc.localInstance p with
    | false =>
        rw [if_pos (show (!false) = true from rfl)]
        unfold hasRoleMatches
        rw [hpcl, Bool.true_and, hrole]
        unfold desiredRoleLabel
        have hon' : memberOnlineName status clc.localInstance p.Name = false := hon
        rw [if_neg hpli, hon', if_neg (by simp : ¬(false = true))]
        rfl
    | true =>
        rw [if_neg (by simp : ¬((!true) = true))]
        have hsec : secondaryMatches clc.localInstance.ClusterName p.Labels = true := by
          unfold secondaryMatches
          rw [hpcl, Bool.true_and, hrole]
          unfold desiredRoleLabel
          have hon' : memberOnlineName status clc.localInstance p.Name = true := hon
          rw [if_neg hpli, hon', if_pos rfl]
          exact beq_self_eq_true _
        rw [hsec]
        simp
  have heq : syncHandler none clc w' key =
      syncRest none status clc.localInstance
        ((listPods w' clc.localInstance.Namespace
            (primaryMatches clc.localInstance.ClusterName)).any
          (fun p => p.Name == clc.localInstance.Name))
        (((w', ([] : List PatchRec)) : PassSt), none) := by
    rw [syncHandler_unfold Hs,
      relabelPrimaries_skip none status clc.localInstance _ ((w', ([] : List PatchRec)) : PassSt)
        hallLi]
  rw [heq, hpl2, syncRest_true]
  exact relabelNonPrimaries_skip none status clc.localInstance clc.localInstance.ClusterName
    _ _ hskipC

theorem C3_idempotent_witness :
    syncHandler none clc0 [podAout, podBout] "c" = (([podAout, podBout], []), none) :=
  C3_idempotent clc0 [podA, podB] "c" status0 (by decide) (by decide) (by decide) (by decide)
    [podAout, podBout] trOut (by decide)

/-- C8: within one successful fault-free pass over a well-formed world of
cluster pods, no pod receives more than one PatchPod call: the names of the
patched pods in the issued trace are pairwise distinct. -/
theorem C8_at_most_one_patch_per_pod (clc : LabelerCtl) (w : World) (key : String)
    (status : ClusterStatus)
    (H1 : ∀ p ∈ w, p.Namespace = clc.localInstance.Namespace)
    (H2 : (w.map Pod.Name).Nodup)
    (H3 : ∀ p ∈ w, clusterMatches clc.localInstance.ClusterName p.Labels = true)
    (Hs : storeGetByKey clc.store key = some status)
    (w' : World) (tr : List PatchRec)
    (Hrun : syncHandler none clc w key = ((w', tr), none)) :
    (tr.map (fun r => r.oldPod.Name)).Nodup :=
  (syncHandler_master clc w key status H1 H2 H3 Hs w' tr Hrun).2.2.2.2.2

theorem C8_at_most_one_patch_per_pod_witness :
    (trOut.map (fun r => r.oldPod.Name)).Nodup :=
  C8_at_most_one_patch_per_pod clc0 [podA, podB] "c" status0 (by decide) (by decide) (by decide)
    (by decide) [podAout, podBout] trOut (by decide)

/-- C10: both topology-membership checks of `syncHandler` look the pod up
under the address formed by joining the pod name with the port of the local
instance, and succeed exactly when that exact key is mapped to an ONLINE
instance in the topology of the default replica set; an entry under any
other host form or port does not make the pod a member. -/
theorem C10_membership_by_name_and_port (status : ClusterStatus) (li : Instance) (pod : Pod) :
    memberOnline status li pod = inCluster status (pod.Name ++ ":" ++ toString li.Port) ∧
    (memberOnline status li pod = true ↔
      ∃ inst,
        topologyLookup status.DefaultReplicaSet.Topology (pod.Name ++ ":" ++ toString li.Port) =
          some inst ∧ inst.Status = InstanceStatusOnline) := by
  refine ⟨rfl, ?_⟩
  unfold memberOnline memberOnlineName inCluster podAddress
  cases h : topologyLookup status.DefaultReplicaSet.Topology (pod.Name ++ ":" ++ toString li.Port) with
  | none => simp
  | some inst => simp [beq_iff_eq]

/-! ### Fault injection: a failing PatchPod call aborts the pass -/

theorem relabelPrimaries_cons_skip {f : Option Nat} {status : ClusterStatus} {li : Instance}
    {pod : Pod} {rest : List Pod} {st : PassSt} (hloc : pod.Name = li.Name) :
    relabelPrimaries f status li (pod :: rest) st = relabelPrimaries f status li rest st := by
  simp [relabelPrimaries, hloc]

theorem relabelPrimaries_cons_patch {f : Option Nat} {status : ClusterStatus} {li : Instance}
    {pod : Pod} {rest : List Pod} {st : PassSt} (hloc : ¬(pod.Name = li.Name)) :
    relabelPrimaries f status li (pod :: rest) st =
      (match doPatch f st pod
          (if !(memberOnline status li pod) then "" else MySQLClusterRoleSecondary) with
       | (st', none) => relabelPrimaries f status li rest st'
       | (st', some e) => (st', some e)) := by
  simp [relabelPrimaries, hloc]

theorem doPatch_none_success {st st' : PassSt} {pod : Pod} {val : String}
    (h : doPatch none st pod val = (st', none)) :
    ∃ pr, updateClusterRoleLabel pod val = some pr ∧
      st' = (patchWorld st.1 pr, st.2 ++ [pr]) := by
  unfold doPatch at h
  cases hu : updateClusterRoleLabel pod val with
  | none =>
      rw [hu] at h
      have h' : ((st, some SyncErr.panicked) : PassSt × Option SyncErr) = (st', none) := h
      injection h' with h1 h2
      exact Option.noConfusion h2
  | some pr =>
      rw [hu] at h
      have h' : ((if (none : Option Nat) = some st.2.length then
          (st, some (SyncErr.patchFailed st.2.length))
          else ((patchWorld st.1 pr, st.2 ++ [pr]), none)) : PassSt × Option SyncErr)
          = (st', none) := h
      rw [if_neg (fun hc => Option.noConfusion hc)] at h'
      injection h' with h1 h2
      exact ⟨pr, rfl, h1.symm⟩

theorem doPatch_sim_lt {k : Nat} {st st' : PassSt} {pod : Pod} {val : String}
    (h : doPatch none st pod val = (st', none)) (hne : ¬(st.2.length = k)) :
    doPatch (some k) st pod val = (st', none) := by
  obtain ⟨pr, hu, hst⟩ := doPatch_none_success h
  unfold doPatch
  rw [hu]
  show (if (some k : Option Nat) = some st.2.length then
      (st, some (SyncErr.patchFailed st.2.length))
      else ((patchWorld st.1 pr, st.2 ++ [pr]), none)) = (st', none)
  rw [if_neg (fun hc => hne (Option.some.inj hc).symm)]
  rw [hst]

theorem doPatch_sim_eq {k : Nat} {st st' : PassSt} {pod : Pod} {val : String}
    (h : doPatch none st pod val = (st', none)) (heq : st.2.length = k) :
    doPatch (some k) st pod val = (st, some (SyncErr.patchFailed k)) := by
  obtain ⟨pr, hu, -⟩ := doPatch_none_success h
  unfold doPatch
  rw [hu]
  show (if (some k : Option Nat) = some st.2.length then
      (st, some (SyncErr.patchFailed st.2.length))
      else ((patchWorld st.1 pr, st.2 ++ [pr]), none)) = (st, some (SyncErr.patchFailed k))
  rw [if_pos (by rw [heq])]
  rw [heq]

theorem doPatch_extends {f : Option Nat} {st st' : PassSt} {e : Option SyncErr}
    {pod : Pod} {val : String} (h : doPatch f st pod val = (st', e)) :
    ∃ Δ, st'.2 = st.2 ++ Δ := by
  unfold doPatch at h
  cases hu : updateClusterRoleLabel pod val with
  | none =>
      rw [hu] at h
      have h' : ((st, some SyncErr.panicked) : PassSt × Option SyncErr) = (st', e) := h
      injection h' with h1 h2
      exact ⟨[], by rw [← h1]; exact (List.append_nil _).symm⟩
  | some pr =>
      rw [hu] at h
      have h' : ((if f = some st.2.length then
          (st, some (SyncErr.patchFailed st.2.length))
          else ((patchWorld st.1 pr, st.2 ++ [pr]), none)) : PassSt × Option SyncErr)
          = (st', e) := h
      by_cases hc : f = some st.2.length
      · rw [if_pos hc] at h'
        injection h' with h1 h2
        exact ⟨[], by rw [← h1]; exact (List.append_nil _).symm⟩
      · rw [if_neg hc] at h'
        injection h' with h1 h2
        refine ⟨[pr], ?_⟩
        rw [← h1]

theorem relabelPrimaries_extends (f : Option Nat) (status : ClusterStatus) (li : Instance) :
    ∀ (L : List Pod) (st : PassSt),
      ∃ Δ, (relabelPrimaries f status li L st).1.2 = st.2 ++ Δ := by
  intro L
  induction L with
  | nil => intro st; exact ⟨[], (List.append_nil _).symm⟩
  | cons pod rest ih =>
      intro st
      by_cases hloc : pod.Name = li.Name
      · rw [relabelPrimaries_cons_skip hloc]
        exact ih st
      · rw [relabelPrimaries_cons_patch hloc]
        rcases hd : doPatch f st pod
            (if !(memberOnline status li pod) then "" else MySQLClusterRoleSecondary)
          with ⟨st', e⟩
        obtain ⟨Δ1, h1⟩ := doPatch_extends hd
        cases e with
        | none =>
            obtain ⟨Δ2, h2⟩ := ih st'
            exact ⟨Δ1 ++ Δ2, by rw [h2, h1, List.append_assoc]⟩
        | some e => exact ⟨Δ1, h1⟩

theorem relabelNonPrimaries_extends (f : Option Nat) (status : ClusterStatus) (li : Instance)
    (cn : String) :
    ∀ (L : List Pod) (st : PassSt),
      ∃ Δ, (relabelNonPrimaries f status li cn L st).1.2 = st.2 ++ Δ := by
  intro L
  induction L with
  | nil => intro st; exact ⟨[], (List.append_nil _).symm⟩
  | cons pod rest ih =>
      intro st
      cases hon : memberOnline status li pod with
      | false =>
          cases hhr : hasRoleMatches cn pod.Labels with
          | true =>
              rw [relabelNP_clear_offline hon hhr]
              rcases hd : doPatch f st pod "" with ⟨st', e⟩
              obtain ⟨Δ1, h1⟩ := doPatch_extends hd
              cases e with
              | none =>
                  obtain ⟨Δ2, h2⟩ := ih st'
                  exact ⟨Δ1 ++ Δ2, by rw [h2, h1, List.append_assoc]⟩
              | some e => exact ⟨Δ1, h1⟩
          | false =>
              rw [relabelNP_skip_offline hon hhr]
              exact ih st
      | true =>
          cases hcond : ((pod.Name != li.Name) && !(secondaryMatches cn pod.Labels)) with
          | true =>
              rw [relabelNP_label_online hon hcond]
              rcases hd : doPatch f st pod MySQLClusterRoleSecondary with ⟨st', e⟩
              obtain ⟨Δ1, h1⟩ := doPatch_extends hd
              cases e with
              | none =>
                  obtain ⟨Δ2, h2⟩ := ih st'
                  exact ⟨Δ1 ++ Δ2, by rw [h2, h1, List.append_assoc]⟩
              | some e => exact ⟨Δ1, h1⟩
          | false =>
              rw [relabelNP_skip_online hon hcond]
              exact ih st

theorem syncRest_extends {f : Option Nat} {status : ClusterStatus} {li : Instance} {b : Bool}
    {wA : World} {trA : List PatchRec} {st' : PassSt} {e : Option SyncErr}
    (h : syncRest f status li b ((wA, trA), none) = (st', e)) :
    ∃ Δ, st'.2 = trA ++ Δ := by
  cases b with
  | true =>
      rw [syncRest_true] at h
      obtain ⟨Δ, hΔ⟩ := relabelNonPrimaries_extends f status li li.ClusterName
        (listPods wA li.Namespace (nonPrimaryMatches li.ClusterName)) ((wA, trA) : PassSt)
      rw [h] at hΔ
      exact ⟨Δ, hΔ⟩
  | false =>
      cases hgp : getPod wA li.Namespace li.Name with
      | none =>
          rw [syncRest_getPod_none f status li wA trA hgp] at h
          injection h with h1 h2
          exact ⟨[], by rw [← h1]; exact (List.append_nil _).symm⟩
      | some primary =>
          rcases hd : doPatch f ((wA, trA) : PassSt) primary MySQLClusterRolePrimary
            with ⟨st2, e2⟩
          obtain ⟨Δ1, h1⟩ := doPatch_extends hd
          cases e2 with
          | some e2 =>
              rw [syncRest_patch_err f status li wA trA primary st2 e2 hgp hd] at h
              injection h with h1' h2'
              refine ⟨Δ1, ?_⟩
              rw [← h1']
              exact h1
          | none =>
              rw [syncRest_patch_ok f status li wA trA primary st2 hgp hd] at h
              obtain ⟨Δ2, h2⟩ := relabelNonPrimaries_extends f status li li.ClusterName
                (listPods st2.1 li.Namespace (nonPrimaryMatches li.ClusterName)) st2
              rw [h] at h2
              refine ⟨Δ1 ++ Δ2, ?_⟩
              rw [(show st'.2 = st2.2 ++ Δ2 from h2), (show st2.2 = trA ++ Δ1 from h1),
                List.append_assoc]

/-- Simulation of a fault at patch index `k` against a successful fault-free
run of the step-2 loop: starting below index `k`, either the loop finishes
below `k` and the faulty run is identical, or the faulty run stops at the
`k`-th patch with exactly the first `k` recorded patches of the fault-free
run. -/
theorem relabelPrimaries_sim (k : Nat) (status : ClusterStatus) (li : Instance) :
    ∀ (L : List Pod) (st : PassSt) (wf : World) (trf : List PatchRec),
      relabelPrimaries none status li L st = ((wf, trf), none) →
      st.2.length ≤ k →
      (trf.length ≤ k ∧ relabelPrimaries (some k) status li L st = ((wf, trf), none)) ∨
      (k < trf.length ∧ ∃ stm : PassSt,
        relabelPrimaries (some k) status li L st = (stm, some (SyncErr.patchFailed k)) ∧
        stm.2 = trf.take k) := by
  intro L
  induction L with
  | nil =>
      intro st wf trf h hk
      have h' : ((st, none) : PassSt × Option SyncErr) = ((wf, trf), none) := h
      injection h' with h1 h2
      left
      refine ⟨?_, ?_⟩
      · rw [h1] at hk
        exact hk
      · show ((st, none) : PassSt × Option SyncErr) = ((wf, trf), none)
        rw [h1]
  | cons pod rest ih =>
      intro st wf trf h hk
      by_cases hloc : pod.Name = li.Name
      · rw [relabelPrimaries_cons_skip hloc] at h
        rw [relabelPrimaries_cons_skip hloc]
        exact ih st wf trf h hk
      · rw [relabelPrimaries_cons_patch hloc] at h
        rw [relabelPrimaries_cons_patch hloc]
        rcases hd : doPatch none st pod
            (if !(memberOnline status li pod) then "" else MySQLClusterRoleSecondary)
          with ⟨st', e⟩
        rw [hd] at h
        cases e with
        | some e' =>
            have h' : ((st', some e') : PassSt × Option SyncErr) = ((wf, trf), none) := h
            injection h' with h1 h2
            exact Option.noConfusion h2
        | none =>
            obtain ⟨pr, hu, hst'⟩ := doPatch_none_success hd
            by_cases hkeq : st.2.length = k
            · right
              have hdk := doPatch_sim_eq hd hkeq
              rw [hdk]
              have hcont : relabelPrimaries none status li rest st' = ((wf, trf), none) := h
              obtain ⟨Δ, hΔ⟩ := relabelPrimaries_extends none status li rest st'
              rw [hcont] at hΔ
              have htrf : trf = st.2 ++ ([pr] ++ Δ) := by
                rw [(show trf = st'.2 ++ Δ from hΔ),
                  (show st'.2 = st.2 ++ [pr] by rw [hst']), List.append_assoc]
              refine ⟨?_, st, rfl, ?_⟩
              · have hpos : 0 < ([pr] ++ Δ).length := by simp
                rw [htrf, List.length_append]
                omega
              · rw [htrf, ← hkeq, List.take_left]
            · have hdk := doPatch_sim_lt hd hkeq
              rw [hdk]
              have hk' : st'.2.length ≤ k := by
                have h2 : st'.2 = st.2 ++ [pr] := by rw [hst']
                rw [h2, List.length_append]
                simp only [List.length_cons, List.length_nil]
                omega
              exact ih st' wf trf h hk'

/-- The same fault simulation for the step-4 loop. -/
theorem relabelNonPrimaries_sim (k : Nat) (status : ClusterStatus) (li : Instance)
    (cn : String) :
    ∀ (L : List Pod) (st : PassSt) (wf : World) (trf : List PatchRec),
      relabelNonPrimaries none status li cn L st = ((wf, trf), none) →
      st.2.length ≤ k →
      (trf.length ≤ k ∧ relabelNonPrimaries (some k) status li cn L st = ((wf, trf), none)) ∨
      (k < trf.length ∧ ∃ stm : PassSt,
        relabelNonPrimaries (some k) status li cn L st = (stm, some (SyncErr.patchFailed k)) ∧
        stm.2 = trf.take k) := by
  intro L
  induction L with
  | nil =>
      intro st wf trf h hk
      have h' : ((st, none) : PassSt × Option SyncErr) = ((wf, trf), none) := h
      injection h' with h1 h2
      left
      refine ⟨?_, ?_⟩
      · rw [h1] at hk
        exact hk
      · show ((st, none) : PassSt × Option SyncErr) = ((wf, trf), none)
        rw [h1]
  | cons pod rest ih =>
      intro st wf trf h hk
      cases hon : memberOnline status li pod with
      | false =>
          cases hhr : hasRoleMatches cn pod.Labels with
          | false =>
              rw [relabelNP_skip_offline hon hhr] at h
              rw [relabelNP_skip_offline hon hhr]
              exact ih st wf trf h hk
          | true =>
              rw [relabelNP_clear_offline hon hhr] at h
              rw [relabelNP_clear_offline hon hhr]
              rcases hd : doPatch none st pod "" with ⟨st', e⟩
              rw [hd] at h
              cases e with
              | some e' =>
                  have h' : ((st', some e') : PassSt × Option SyncErr) = ((wf, trf), none) := h
                  injection h' with h1 h2
                  exact Option.noConfusion h2
              | none =>
                  obtain ⟨pr, hu, hst'⟩ := doPatch_none_success hd
                  by_cases hkeq : st.2.length = k
                  · right
                    have hdk := doPatch_sim_eq hd hkeq
                    rw [hdk]
                    have hcont : relabelNonPrimaries none status li cn rest st'
                        = ((wf, trf), none) := h
                    obtain ⟨Δ, hΔ⟩ := relabelNonPrimaries_extends none status li cn rest st'
                    rw [hcont] at hΔ
                    have htrf : trf = st.2 ++ ([pr] ++ Δ) := by
                      rw [(show trf = st'.2 ++ Δ from hΔ),
                        (show st'.2 = st.2 ++ [pr] by rw [hst']), List.append_assoc]
                    refine ⟨?_, st, rfl, ?_⟩
                    · have hpos : 0 < ([pr] ++ Δ).length := by simp
                      rw [htrf, List.length_append]
                      omega
                    · rw [htrf, ← hkeq, List.take_left]
                  · have hdk := doPatch_sim_lt hd hkeq
                    rw [hdk]
                    have hk' : st'.2.length ≤ k := by
                      have h2 : st'.2 = st.2 ++ [pr] := by rw [hst']
                      rw [h2, List.length_append]
                      simp only [List.length_cons, List.length_nil]
                      omega
                    exact ih st' wf trf h hk'
      | true =>
          cases hcond : ((pod.Name != li.Name) && !(secondaryMatches cn pod.Labels)) with
          | false =>
              rw [relabelNP_skip_online hon hcond] at h
              rw [relabelNP_skip_online hon hcond]
              exact ih st wf trf h hk
          | true =>
              rw [relabelNP_label_online hon hcond] at h
              rw [relabelNP_label_online hon hcond]
              rcases hd : doPatch none st pod MySQLClusterRoleSecondary with ⟨st', e⟩
              rw [hd] at h
              cases e with
              | some e' =>
                  have h' : ((st', some e') : PassSt × Option SyncErr) = ((wf, trf), none) := h
                  injection h' with h1 h2
                  exact Option.noConfusion h2
              | none =>
                  obtain ⟨pr, hu, hst'⟩ := doPatch_none_success hd
                  by_cases hkeq : st.2.length = k
                  · right
                    have hdk := doPatch_sim_eq hd hkeq
                    rw [hdk]
                    have hcont : relabelNonPrimaries none status li cn rest st'
                        = ((wf, trf), none) := h
                    obtain ⟨Δ, hΔ⟩ := relabelNonPrimaries_extends none status li cn rest st'
                    rw [hcont] at hΔ
                    have htrf : trf = st.2 ++ ([pr] ++ Δ) := by
                      rw [(show trf = st'.2 ++ Δ from hΔ),
                        (show st'.2 = st.2 ++ [pr] by rw [hst']), List.append_assoc]
                    refine ⟨?_, st, rfl, ?_⟩
                    · have hpos : 0 < ([pr] ++ Δ).length := by simp
                      rw [htrf, List.length_append]
                      omega
                    · rw [htrf, ← hkeq, List.take_left]
                  · have hdk := doPatch_sim_lt hd hkeq
                    rw [hdk]
                    have hk' : st'.2.length ≤ k := by
                      have h2 : st'.2 = st.2 ++ [pr] := by rw [hst']
                      rw [h2, List.length_append]
                      simp only [List.length_cons, List.length_nil]
                      omega
                    exact ih st' wf trf h hk'

/-- Whole-pass fault simulation: if the fault-free pass succeeds with trace
`trN` and `k` is the index of one of its patches, the pass whose `k`-th
PatchPod call fails stops right there, having issued exactly the first `k`
patches of the fault-free pass, on the world reached by applying them. -/
theorem syncHandler_sim (k : Nat) (clc : LabelerCtl) (w : World) (key : String)
    (wN : World) (trN : List PatchRec)
    (Hn : syncHandler none clc w key = ((wN, trN), none))
    (Hk : k < trN.length) :
    syncHandler (some k) clc w key =
      ((applyTrace w (trN.take k), trN.take k), some (SyncErr.patchFailed k)) := by
  cases hs : storeGetByKey clc.store key with
  | none =>
      have hnil : syncHandler none clc w key = ((w, []), none) := by
        unfold syncHandler
        rw [hs]
      rw [Hn] at hnil
      injection hnil with h1 h2
      injection h1 with h1a h1b
      rw [h1b] at Hk
      exact absurd Hk (by simp)
  | some status =>
      rw [syncHandler_unfold hs] at Hn
      rw [syncHandler_unfold hs]
      rcases hA : relabelPrimaries none status clc.localInstance
          (listPods w clc.localInstance.Namespace
            (primaryMatches clc.localInstance.ClusterName))
          ((w, ([] : List PatchRec)) : PassSt) with ⟨st1, e1⟩
      rw [hA] at Hn
      cases e1 with
      | some e1 =>
          rw [syncRest_err] at Hn
          injection Hn with h1 h2
          exact Option.noConfusion h2
      | none =>
          rcases st1 with ⟨w1, tr1⟩
          have hw1 : w1 = applyTrace w tr1 := by
            have h0 := relabelPrimaries_tracks none status clc.localInstance
              (listPods w clc.localInstance.Namespace
                (primaryMatches clc.localInstance.ClusterName))
              w ((w, ([] : List PatchRec)) : PassSt) rfl
            rw [hA] at h0
            exact h0
          have hsimA := relabelPrimaries_sim k status clc.localInstance
            (listPods w clc.localInstance.Namespace
              (primaryMatches clc.localInstance.ClusterName))
            ((w, ([] : List PatchRec)) : PassSt) w1 tr1 hA (Nat.zero_le k)
          rcases hsimA with ⟨hlen1, hAk⟩ | ⟨hlt1, stm, hAk, hstm⟩
          · rw [hAk]
            cases hb : (listPods w clc.localInstance.Namespace
                (primaryMatches clc.localInstance.ClusterName)).any
                (fun p => p.Name == clc.localInstance.Name) with
            | true =>
                rw [hb, syncRest_true] at Hn
                rw [syncRest_true]
                have hsimB := relabelNonPrimaries_sim k status clc.localInstance
                  clc.localInstance.ClusterName
                  (listPods w1 clc.localInstance.Namespace
                    (nonPrimaryMatches clc.localInstance.ClusterName))
                  ((w1, tr1) : PassSt) wN trN Hn hlen1
                rcases hsimB with ⟨hlen2, _⟩ | ⟨hlt2, stm, hBk, hstm⟩
                · exact absurd Hk (by omega)
                · rw [hBk]
                  have htr : stm.1 = applyTrace w stm.2 := by
                    have h1 := relabelNonPrimaries_tracks (some k) status clc.localInstance
                      clc.localInstance.ClusterName
                      (listPods w1 clc.localInstance.Namespace
                        (nonPrimaryMatches clc.localInstance.ClusterName))
                      w ((w1, tr1) : PassSt) hw1
                    rw [hBk] at h1
                    exact h1
                  have hstm1 : stm.1 = applyTrace w (trN.take k) := by rw [htr, hstm]
                  rw [Prod.mk.injEq]
                  exact ⟨by rw [← hstm1, ← hstm], rfl⟩
            | false =>
                rw [hb] at Hn
                cases hgp : getPod w1 clc.localInstance.Namespace clc.localInstance.Name with
                | none =>
                    rw [syncRest_getPod_none none status clc.localInstance w1 tr1 hgp] at Hn
                    injection Hn with h1 h2
                    exact Option.noConfusion h2
                | some primary =>
                    rcases hd : doPatch none ((w1, tr1) : PassSt) primary
                        MySQLClusterRolePrimary with ⟨st2, e2⟩
                    cases e2 with
                    | some e2 =>
                        rw [syncRest_patch_err none status clc.localInstance w1 tr1 primary
                          st2 e2 hgp hd] at Hn
                        injection Hn with h1 h2
                        exact Option.noConfusion h2
                    | none =>
                        rw [syncRest_patch_ok none status clc.localInstance w1 tr1 primary
                          st2 hgp hd] at Hn
                        obtain ⟨pr, hu, hst2⟩ := doPatch_none_success hd
                        have hs2 : st2.2 = tr1 ++ [pr] := by rw [hst2]
                        by_cases hkeq : tr1.length = k
                        · have hdk : doPatch (some k) ((w1, tr1) : PassSt) primary
                              MySQLClusterRolePrimary
                              = (((w1, tr1) : PassSt), some (SyncErr.patchFailed k)) :=
                            doPatch_sim_eq hd hkeq
                          rw [syncRest_patch_err (some k) status clc.localInstance w1 tr1
                            primary ((w1, tr1) : PassSt) (SyncErr.patchFailed k) hgp hdk]
                          obtain ⟨Δ, hΔ⟩ := relabelNonPrimaries_extends none status
                            clc.localInstance clc.localInstance.ClusterName
                            (listPods st2.1 clc.localInstance.Namespace
                              (nonPrimaryMatches clc.localInstance.ClusterName)) st2
                          rw [Hn] at hΔ
                          have htrN : trN = tr1 ++ ([pr] ++ Δ) := by
                            rw [(show trN = st2.2 ++ Δ from hΔ), hs2, List.append_assoc]
                          have htake : trN.take k = tr1 := by
                            rw [htrN, ← hkeq, List.take_left]
                          rw [htake, ← hw1]
                        · have hdk : doPatch (some k) ((w1, tr1) : PassSt) primary
                              MySQLClusterRolePrimary = (st2, none) :=
                            doPatch_sim_lt hd hkeq
                          rw [syncRest_patch_ok (some k) status clc.localInstance w1 tr1
                            primary st2 hgp hdk]
                          have hk2 : st2.2.length ≤ k := by
                            rw [hs2, List.length_append]
                            simp only [List.length_cons, List.length_nil]
                            omega
                          have hsimB := relabelNonPrimaries_sim k status clc.localInstance
                            clc.localInstance.ClusterName
                            (listPods st2.1 clc.localInstance.Namespace
                              (nonPrimaryMatches clc.localInstance.ClusterName))
                            st2 wN trN Hn hk2
                          rcases hsimB with ⟨hlen2, _⟩ | ⟨hlt2, stm, hBk, hstm⟩
                          · exact absurd Hk (by omega)
                          · rw [hBk]
                            have hst2tr : st2.1 = applyTrace w st2.2 := by
                              have h1 := doPatch_tracks
                                (show ((w1, tr1) : PassSt).1
                                    = applyTrace w ((w1, tr1) : PassSt).2 from hw1)
                                none primary MySQLClusterRolePrimary
                              rw [hd] at h1
                              exact h1
                            have htr : stm.1 = applyTrace w stm.2 := by
                              have h1 := relabelNonPrimaries_tracks (some k) status
                                clc.localInstance clc.localInstance.ClusterName
                                (listPods st2.1 clc.localInstance.Namespace
                                  (nonPrimaryMatches clc.localInstance.ClusterName))
                                w st2 hst2tr
                              rw [hBk] at h1
                              exact h1
                            have hstm1 : stm.1 = applyTrace w (trN.take k) := by
                              rw [htr, hstm]
                            rw [Prod.mk.injEq]
                            exact ⟨by rw [← hstm1, ← hstm], rfl⟩
          · rw [hAk, syncRest_err]
            obtain ⟨Δ, hΔ⟩ := syncRest_extends Hn
            have htrN : trN = tr1 ++ Δ := hΔ
            have htake : trN.take k = tr1.take k := by
              rw [htrN, List.take_append_eq_append_take]
              rw [(show k - tr1.length = 0 by omega), List.take_zero, List.append_nil]
            have htr : stm.1 = applyTrace w stm.2 := by
              have h0 := relabelPrimaries_tracks (some k) status clc.localInstance
                (listPods w clc.localInstance.Namespace
                  (primaryMatches clc.localInstance.ClusterName))
                w ((w, ([] : List PatchRec)) : PassSt) rfl
              rw [hAk] at h0
              exact h0
            have hstm2 : stm.2 = trN.take k := by
              rw [htake]
              exact hstm
            have hstm1 : stm.1 = applyTrace w (trN.take k) := by rw [htr, hstm2]
            rw [Prod.mk.injEq]
            exact ⟨by rw [← hstm1, ← hstm2], rfl⟩

/-- C5: when a single PatchPod call — the `k`-th of the calls the fault-free
pass would issue — fails, `syncHandler` returns the error immediately: the
failing pass has issued exactly the first `k` patches of the fault-free
pass and nothing further, its final world is the initial world with just
those `k` patches applied (earlier mutations retained, never rolled back),
and `processNextWorkItem` requeues the key with rate-limited backoff
instead of forgetting it. -/
theorem C5_fail_fast_retains_and_requeues (clc : LabelerCtl) (w : World) (key : String)
    (k : Nat) (wN : World) (trN : List PatchRec)
    (Hn : syncHandler none clc w key = ((wN, trN), none))
    (Hk : k < trN.length) :
    syncHandler (some k) clc w key =
      ((applyTrace w (trN.take k), trN.take k), some (SyncErr.patchFailed k)) ∧
    (trN.take k).length = k ∧
    processKeyAction (some k) clc w key = some QueueAction.addRateLimited := by
  have hs := syncHandler_sim k clc w key wN trN Hn Hk
  refine ⟨hs, ?_, ?_⟩
  · rw [List.length_take]
    omega
  · unfold processKeyAction
    rw [hs]

theorem C5_fail_fast_retains_and_requeues_witness :
    (syncHandler none clc0 [podA, podB] "c" = (([podAout, podBout], trOut), none) ∧
      1 < trOut.length) ∧
    (syncHandler (some 1) clc0 [podA, podB] "c" =
        ((applyTrace [podA, podB] (trOut.take 1), trOut.take 1),
          some (SyncErr.patchFailed 1)) ∧
      (trOut.take 1).length = 1 ∧
      processKeyAction (some 1) clc0 [podA, podB] "c" = some QueueAction.addRateLimited) :=
  ⟨⟨by decide, by decide⟩,
    C5_fail_fast_retains_and_requeues clc0 [podA, podB] "c" 1 [podAout, podBout] trOut
      (by decide) (by decide)⟩

end Labeler
